import Mathlib

/-
Verification of the distil usage-collection pipeline.

This file gives a shallow embedding, in Lean 4, of the collection and
transformation logic of the distil repository:

  * distil/transformer/arithmetic.py   (Numbool, Max, Sum transformers)
  * distil/transformer/conversion.py   (NetworkService transformer)
  * distil/collector/base.py           (BaseCollector: collect_usage,
                                        _filter_and_group, _transform_usages,
                                        _get_resource_info, _get_os_distro,
                                        _sample_search, _sample_filter)
  * distil/service/collector.py        (CollectorService._collect_usage)

Conventions of the embedding:

  * Python floats are modelled as rationals (ℚ); no claim in scope depends
    on binary floating-point rounding.
  * Python `None`-able floats (sample volumes) are `Option ℚ`.
  * Python dicts keyed by strings are association lists `List (String × _)`
    preserving insertion order, as Python dicts do.
  * Fallible Python code returns `Except PyErr _`; an uncaught Python
    exception is an `Except.error`.  Python 3 semantics are used: comparing
    `None` with a number raises `TypeError`.
  * External collaborators that are not part of this repository (the `re`
    regex library, the `jmespath` query library, `hashlib.md5`, the
    OpenStack clients, and the database layer) are modelled as fields of an
    environment record: the embedding is parametric in their behaviour.
  * Logging calls are side-effect free in the source (oslo_log) and are not
    modelled.
-/

namespace Distil

/-- Value is the model of a dynamically typed Python value as returned by
the external jmespath library and stored in mapping configuration. -/
inductive Value where
  | vnull
  | vnum (q : ℚ)
  | vstr (s : String)
  | vbool (b : Bool)
deriving DecidableEq, Repr

/-- Truthiness of a Python value (`bool(v)`). -/
def Value.truthy : Value → Bool
  | .vnull => false
  | .vnum q => q ≠ 0
  | .vstr s => s ≠ ""
  | .vbool b => b

/-- PyErr enumerates the Python exception classes that the embedded code can
raise: builtin `TypeError`, `ValueError`, `KeyError`, and the distil
exceptions from distil/exceptions.py used by the collector. -/
inductive PyErr where
  | typeError
  | valueError
  | keyError
  | searchExpressionNotFound
  | searchExpressionValueType
  | collectionError
deriving DecidableEq, Repr

/-- PyDateTime models `datetime.datetime` (naive, microsecond precision). -/
structure PyDateTime where
  year : Nat
  month : Nat
  day : Nat
  hour : Nat
  minute : Nat
  second : Nat
  microsecond : Nat
deriving DecidableEq, Repr

/-- Day number of a proleptic-Gregorian civil date, with day 0 at
1970-01-01 (the standard days-from-civil algorithm).  All divisions are on
non-negative operands for the years handled here. -/
def daysFromCivil (y m d : Int) : Int :=
  let y' := y - (if m ≤ 2 then 1 else 0)
  let era := (if 0 ≤ y' then y' else y' - 399) / 400
  let yoe := y' - era * 400
  let mp := (m + 9) % 12
  let doy := (153 * mp + 2) / 5 + d - 1
  let doe := yoe * 365 + yoe / 4 - yoe / 100 + doy
  era * 146097 + doe - 719468

/-- Instant of a datetime, in seconds since the epoch, as a rational (the
microsecond field contributes a fractional part).  Python's `datetime`
comparison and subtraction agree with comparison and subtraction of these
instants. -/
def PyDateTime.toSec (t : PyDateTime) : ℚ :=
  ((daysFromCivil t.year t.month t.day * 86400
    + t.hour * 3600 + t.minute * 60 + t.second : Int) : ℚ)
  + (t.microsecond : ℚ) / 1000000

/-- Python `a < b` on datetimes. -/
def PyDateTime.lt (a b : PyDateTime) : Bool := a.toSec < b.toSec

/-- Python `a <= b` on datetimes. -/
def PyDateTime.le (a b : PyDateTime) : Bool := a.toSec ≤ b.toSec

/-- Elapsed seconds `(b - a).total_seconds()` between two datetimes. -/
def totalSeconds (a b : PyDateTime) : ℚ := b.toSec - a.toSec

/-- Python float floor division by 3600.0 of the elapsed seconds, i.e.
`(end - start).total_seconds() // 3600.0` — the whole number of hours in
the window as used by the flooring transformers. -/
def floorHours (a b : PyDateTime) : ℚ := ((totalSeconds a b / 3600 : ℚ).floor : ℚ)

/-- Fractional hours `(end - start).total_seconds() / 3600.0` as used by the
non-flooring transformers. -/
def fracHours (a b : PyDateTime) : ℚ := totalSeconds a b / 3600

/-- Sample models one raw ceilometer sample dict as consumed by the
collector: resource id, source, ISO timestamp string, nullable volume,
string-valued metadata dict, and project id. -/
structure Sample where
  resource_id : String
  source : String
  timestamp : String
  volume : Option ℚ
  metadata : List (String × String)
  project_id : String
deriving DecidableEq, Repr

/-- Association-list lookup, the model of Python `d[k]` / `d.get(k)` for
string-keyed dicts. -/
def alookup {α : Type} (l : List (String × α)) (k : String) : Option α :=
  match l with
  | [] => none
  | (k', v) :: rest => if k' = k then some v else alookup rest k

/-- Association-list assignment `d[k] = v`: overwrite in place if the key
exists, else append (Python dicts keep insertion order). -/
def aset {α : Type} (l : List (String × α)) (k : String) (v : α) :
    List (String × α) :=
  match l with
  | [] => [(k, v)]
  | (k', v') :: rest => if k' = k then (k', v) :: rest else (k', v') :: aset rest k v

end Distil

namespace Distil

/-! Character-list parsing utilities.  String scanning is done on the
underlying `List Char` so that every recursion is structural and witnesses
can be checked by kernel evaluation. -/

/-- Split a character list on a separator character (model of
`str.split(sep)` for the single-character separators used here). -/
def splitOnChar (sep : Char) : List Char → List (List Char)
  | [] => [[]]
  | c :: rest =>
    let r := splitOnChar sep rest
    if c = sep then [] :: r
    else match r with
      | [] => [[c]]
      | x :: xs => (c :: x) :: xs

/-- Numeric value of a non-empty all-digit character list. -/
def digitsToNat : List Char → Option Nat
  | [] => none
  | l => go l 0
where
  go : List Char → Nat → Option Nat
    | [], acc => some acc
    | c :: rest, acc =>
      if c.isDigit then go rest (acc * 10 + (c.toNat - 48)) else none

/-- Leap-year predicate of the Gregorian calendar. -/
def isLeap (y : Nat) : Bool := y % 4 = 0 ∧ (y % 100 ≠ 0 ∨ y % 400 = 0)

/-- Number of days in a month, as validated by the `datetime` constructor. -/
def daysInMonth (y m : Nat) : Nat :=
  if m = 2 then (if isLeap y then 29 else 28)
  else if m = 4 ∨ m = 6 ∨ m = 9 ∨ m = 11 then 30
  else 31

/-- Field validation performed by the `datetime.datetime` constructor. -/
def validDateTime (t : PyDateTime) : Bool :=
  1 ≤ t.year ∧ t.year ≤ 9999 ∧ 1 ≤ t.month ∧ t.month ≤ 12 ∧
  1 ≤ t.day ∧ t.day ≤ daysInMonth t.year t.month ∧
  t.hour ≤ 23 ∧ t.minute ≤ 59 ∧ t.second ≤ 59 ∧ t.microsecond ≤ 999999

/-- Parse a `%Y-%m-%d` date part into (year, month, day). -/
def parseDatePart (l : List Char) : Option (Nat × Nat × Nat) :=
  match splitOnChar '-' l with
  | [ys, ms, ds] =>
    if ys.length ≤ 4 ∧ ms.length ≤ 2 ∧ ds.length ≤ 2 then
      match digitsToNat ys, digitsToNat ms, digitsToNat ds with
      | some y, some m, some d => some (y, m, d)
      | _, _, _ => none
    else none
  | _ => none

/-- Parse a `%H:%M:%S` time part into (hour, minute, second). -/
def parseTimePart (l : List Char) : Option (Nat × Nat × Nat) :=
  match splitOnChar ':' l with
  | [hs, ms, ss] =>
    if hs.length ≤ 2 ∧ ms.length ≤ 2 ∧ ss.length ≤ 2 then
      match digitsToNat hs, digitsToNat ms, digitsToNat ss with
      | some h, some m, some s => some (h, m, s)
      | _, _, _ => none
    else none
  | _ => none

/-- Microsecond value of a `%f` directive: 1 to 6 digits, padded on the
right with zeros to six digits, exactly as CPython's `_strptime` does. -/
def parseFracPart (l : List Char) : Option Nat :=
  if 1 ≤ l.length ∧ l.length ≤ 6 then
    match digitsToNat l with
    | some n => some (n * 10 ^ (6 - l.length))
    | none => none
  else none

/-- Model of `datetime.strptime(s, "%Y-%m-%dT%H:%M:%S")`: `none` stands for
the `ValueError` raised on a mismatch. -/
def strptimeNoFrac (s : String) : Option PyDateTime :=
  match splitOnChar 'T' s.data with
  | [datePart, timePart] =>
    match parseDatePart datePart, parseTimePart timePart with
    | some (y, mo, d), some (h, mi, se) =>
      let t : PyDateTime := ⟨y, mo, d, h, mi, se, 0⟩
      if validDateTime t then some t else none
    | _, _ => none
  | _ => none

/-- Model of `datetime.strptime(s, "%Y-%m-%dT%H:%M:%S.%f")`. -/
def strptimeFrac (s : String) : Option PyDateTime :=
  match splitOnChar 'T' s.data with
  | [datePart, timePart] =>
    match splitOnChar '.' timePart with
    | [hms, frac] =>
      match parseDatePart datePart, parseTimePart hms, parseFracPart frac with
      | some (y, mo, d), some (h, mi, se), some us =>
        let t : PyDateTime := ⟨y, mo, d, h, mi, se, us⟩
        if validDateTime t then some t else none
      | _, _, _ => none
    | _ => none
  | _ => none

/-- Model of `float(s)` on a string: optional sign, integer digits, and an
optional fractional part.  `none` stands for the `ValueError` raised on a
non-numeric string. -/
def parseFloat (s : String) : Option ℚ :=
  let body : List Char → Option ℚ := fun l =>
    match splitOnChar '.' l with
    | [intPart] =>
      match digitsToNat intPart with
      | some n => some (n : ℚ)
      | none => none
    | [intPart, fracPart] =>
      match digitsToNat intPart, digitsToNat fracPart with
      | some n, some f => some ((n : ℚ) + (f : ℚ) / (10 ^ fracPart.length : ℕ))
      | _, _ => none
    | _ => none
  match s.data with
  | '-' :: rest => (body rest).map (fun q => -q)
  | '+' :: rest => body rest
  | l => body l

/-- Model of `float(v)` on a dynamically typed value.  `float(None)` (and of
any non-number, non-string value) raises `TypeError`; a non-numeric string
raises `ValueError`. -/
def pyFloat (v : Value) : Except PyErr ℚ :=
  match v with
  | .vnum q => .ok q
  | .vstr s =>
    match parseFloat s with
    | some q => .ok q
    | none => .error .valueError
  | .vbool b => .ok (if b then 1 else 0)
  | .vnull => .error .typeError

end Distil

namespace Distil

/-! Transformers (distil/transformer/arithmetic.py and conversion.py).

The `BaseTransformer`/`get_transformer` plumbing lives in
distil/transformer/__init__.py, which is not part of the sources at hand;
per the spec ("Transformer polymorphism: an interface with one method,
selected via a registry keyed by name") the public `transform_usage` method
simply delegates to the subclass `_transform_usage`, so each transformer is
embedded as one function, named `<Class>.transform_usage`.

A transformer returns a dict of (service, volume) pairs, `None`, or an
empty dict; the result type `Option (List (String × ℚ))` uses `none` for
Python `None` and `some []` for `{}`. -/

/-- Volumes is the model of a transformer result dict. -/
abbrev Volumes := List (String × ℚ)

/-- NumboolTransformer._transform_usage: returns `{meter_name: 1}` as soon
as a sample with a truthy, positive volume is seen, else `{meter_name: 0}`.
A `None` volume is falsy, so it is skipped without comparison. -/
def NumboolTransformer.transform_usage (meter_name : String)
    (raw_data : List Sample) (_start_at _end_at : PyDateTime) :
    Except PyErr (Option Volumes) :=
  .ok (some (go raw_data))
where
  go : List Sample → Volumes
    | [] => [(meter_name, 0)]
    | sample :: rest =>
      match sample.volume with
      | some v => if v ≠ 0 ∧ v > 0 then [(meter_name, 1)] else go rest
      | none => go rest

/-- MaxTransformer._get_max_vol: maximum of the volumes with `None` read as
0; an empty list (and, redundantly in the source, a falsy maximum) gives 0. -/
def MaxTransformer.get_max_vol (data : List Sample) : ℚ :=
  match data.map (fun v => v.volume.getD 0) with
  | [] => 0
  | x :: xs =>
    let max_vol := xs.foldl max x
    if max_vol ≠ 0 then max_vol else 0

/-- MaxTransformer._transform_usage: max volume times fractional hours in
the window. -/
def MaxTransformer.transform_usage (meter_name : String)
    (raw_data : List Sample) (start_at end_at : PyDateTime) :
    Except PyErr (Option Volumes) :=
  .ok (some [(meter_name, MaxTransformer.get_max_vol raw_data
    * fracHours start_at end_at)])

/-- Filter `[v["volume"] for v in data if v["volume"] < 2]` of
NetworkServiceTransformer: under Python 3, comparing a `None` volume with
the ceiling raises `TypeError`. -/
def NetworkServiceTransformer.filterVolumes :
    List Sample → Except PyErr (List ℚ)
  | [] => .ok []
  | v :: rest =>
    match v.volume with
    | none => .error .typeError
    | some q => do
      let r ← NetworkServiceTransformer.filterVolumes rest
      pure (if q < 2 then q :: r else r)

/-- NetworkServiceTransformer._transform_usage: keep volumes below the
fixed ceiling 2 (the 0=inactive / 1=active status channel), take their
maximum (0 when none remain), and scale by whole floored hours. -/
def NetworkServiceTransformer.transform_usage (name : String)
    (data : List Sample) (start finish : PyDateTime) :
    Except PyErr (Option Volumes) := do
  let volumes ← NetworkServiceTransformer.filterVolumes data
  let max_vol : ℚ :=
    match volumes with
    | [] => 0
    | x :: xs => xs.foldl max x
  let hours := floorHours start finish
  pure (some [(name, max_vol * hours)])

/-- Timestamp parse of SumTransformer: `strptime` with the fractional
format first, falling back to the plain format on `ValueError`; if both
fail the `ValueError` of the second call propagates. -/
def SumTransformer.parseTimestamp (s : String) : Except PyErr PyDateTime :=
  match strptimeFrac s with
  | some t => .ok t
  | none =>
    match strptimeNoFrac s with
    | some t => .ok t
    | none => .error .valueError

/-- Summation loop of SumTransformer: add the volume (`None` read as 0) of
every sample whose embedded timestamp t satisfies `start_at <= t < end_at`. -/
def SumTransformer.sumVolumes (start_at end_at : PyDateTime) :
    List Sample → ℚ → Except PyErr ℚ
  | [], acc => .ok acc
  | sample :: rest, acc => do
    let t ← SumTransformer.parseTimestamp sample.timestamp
    let acc' :=
      if start_at.toSec ≤ t.toSec ∧ t.toSec < end_at.toSec then
        acc + sample.volume.getD 0
      else acc
    SumTransformer.sumVolumes start_at end_at rest acc'

/-- SumTransformer._transform_usage: sum of in-window volumes, re-filtering
samples by their own embedded timestamp. -/
def SumTransformer.transform_usage (meter_name : String)
    (raw_data : List Sample) (start_at end_at : PyDateTime) :
    Except PyErr (Option Volumes) := do
  let sum_vol ← SumTransformer.sumVolumes start_at end_at raw_data 0
  pure (some [(meter_name, sum_vol)])

end Distil

namespace Distil

/-! Collector (distil/collector/base.py). -/

/-- SearchExpr models the `expression` argument of `_sample_search`, which
is either a single string (`six.string_types` branch) or a list of strings. -/
inductive SearchExpr where
  | single (s : String)
  | several (l : List String)
deriving DecidableEq, Repr

/-- Expression list the search loop iterates over. -/
def SearchExpr.toList : SearchExpr → List String
  | .single s => [s]
  | .several l => l

/-- Python truthiness of the expression value as read from configuration. -/
def SearchExpr.pyTruthy : SearchExpr → Bool
  | .single s => s ≠ ""
  | .several l => l ≠ []

/-- ValueConv models the `value_type` callable argument of `_sample_search`
(`float` at the only call site). -/
abbrev ValueConv := Value → Except PyErr Value

/-- Conversion performed by passing `value_type=float`. -/
def floatConv : ValueConv := fun v => (pyFloat v).map .vnum

/-- TransformFn is the signature of `BaseTransformer.transform_usage`:
service name, samples for one resource, and window bounds, to an optional
volumes dict. -/
abbrev TransformFn :=
  String → List Sample → PyDateTime → PyDateTime → Except PyErr (Option Volumes)

/-- RootVolume models the cinder volume object returned by
`openstack.get_root_volume` (only the attribute the collector reads). -/
structure RootVolume where
  volume_image_metadata : Option (List (String × String))

/-- ImageInfo models the glance image object returned by
`openstack.get_image` (only the attribute the collector reads; `none`
makes `getattr(img, "os_distro", "unknown")` fall back). -/
structure ImageInfo where
  os_distro : Option String

/-- Env bundles the collaborators of BaseCollector that are not part of
the sources at hand.  `reMatch` is `re.match` of the Python standard
library, `jmesSearch` is `jmespath.search`, `md5_hex` is
`hashlib.md5(..).hexdigest()`, `get_root_volume`/`get_image` are the
OpenStack client wrappers of distil/common/openstack.py, and
`resource_exists` is `bool(db_api.resource_get_by_ids(project, [id]))`.
Modelled from the spec are the parts of this repository missing from the
sources: `get_meter` (the abstract collector driver method, spec §4.1),
`get_transformer` (the registry of distil/transformer/__init__.py, spec
§4.3 "selected via a registry keyed by name"), and the persistence calls
(spec §6), whose `usages_add` commit is recorded as a trace event rather
than called.  Every field is an arbitrary pure function: the embedding is
parametric in their behaviour. -/
structure Env where
  reMatch : String → String → Bool
  jmesSearch : String → Sample → Value
  md5_hex : String → String
  get_meter : String → String → PyDateTime → PyDateTime → Except PyErr (List Sample)
  get_transformer : String → List (String × Value) → TransformFn
  resource_exists : String → String → Bool
  get_root_volume : String → Except PyErr (Option RootVolume)
  get_image : String → Except PyErr ImageInfo

/-- VolumeCfg models the `volume` key of a meter mapping: either a literal
override or a dict with `sources` and/or `source` search expressions. -/
inductive VolumeCfg where
  | lit (v : Value)
  | cfgDict (sources : Option SearchExpr) (source : Option SearchExpr)
deriving DecidableEq, Repr

/-- Python truthiness of the `volume` configuration value (a dict is truthy
when non-empty). -/
def VolumeCfg.pyTruthy : VolumeCfg → Bool
  | .lit v => v.truthy
  | .cfgDict s1 s2 => s1.isSome || s2.isSome

/-- MetaParams is one field entry of a mapping's `metadata` section:
candidate metadata keys and an optional format template. -/
structure MetaParams where
  sources : List String
  template : Option String
deriving DecidableEq, Repr

/-- MeterMapping is one rule of the meter mappings document (spec §3).
An absent `filters` key and an empty/falsy one behave identically in the
source, so both are `[]` here. -/
structure MeterMapping where
  meter : String
  service : Option String
  type : String
  transformer : String
  transformer_config : List (String × Value)
  unit : String
  metadata : List (String × MetaParams)
  filters : List String
  volume : Option VolumeCfg
  res_id_template : Option String

deriving instance DecidableEq for Except

/-- BaseCollector._sample_search: try each expression with
`jmespath.search`; the first non-`None` value is converted (a `ValueError`
of the conversion becomes `SearchExpressionValueTypeError`, other errors
propagate) and returned; if none matches, return the default when
`optional` else raise `SearchExpressionNotFoundError`. -/
def BaseCollector.sample_search (env : Env) (_field : String)
    (expression : SearchExpr) (sample : Sample) (optional : Bool)
    (dflt : Value) (value_type : Option ValueConv) : Except PyErr Value :=
  go expression.toList
where
  go : List String → Except PyErr Value
    | [] =>
      if optional then .ok dflt else .error .searchExpressionNotFound
    | search_expr :: rest =>
      let value := env.jmesSearch search_expr sample
      if value ≠ .vnull then
        match value_type with
        | some conv =>
          match conv value with
          | .ok v => .ok v
          | .error .valueError => .error .searchExpressionValueType
          | .error e => .error e
        | none => .ok value
      else go rest

/-- BaseCollector._sample_filter: a sample passes only if every filter
expression evaluates truthy on it. -/
def BaseCollector.sample_filter (env : Env) (filters : List String)
    (sample : Sample) : Bool :=
  filters.all fun f => (env.jmesSearch f sample).truthy

/-- Model of `usage_by_resource.setdefault(resource_id, []).append(u)`:
append to the existing group for the key, else create a new group at the
end (dict insertion order). -/
def setdefaultAppend (groups : List (String × List Sample)) (k : String)
    (u : Sample) : List (String × List Sample) :=
  match groups with
  | [] => [(k, [u])]
  | (k', l) :: rest =>
    if k' = k then (k', l ++ [u]) :: rest
    else (k', l) :: setdefaultAppend rest k u

/-- Drop condition of `_filter_and_group`: at least one trusted-source
pattern is configured and the sample's `source` matches none of them. -/
def BaseCollector.untrusted (env : Env) (trust_sources : List String)
    (u : Sample) : Bool :=
  trust_sources ≠ [] ∧
    trust_sources.all (fun source => ¬ env.reMatch source u.source)

/-- BaseCollector._filter_and_group: drop samples whose `source` matches no
configured trusted-source pattern (when at least one pattern is
configured), and group the remaining samples by resource id. -/
def BaseCollector.filter_and_group (env : Env) (trust_sources : List String)
    (usage : List Sample) : List (String × List Sample) :=
  go usage []
where
  go : List Sample → List (String × List Sample) → List (String × List Sample)
    | [], acc => acc
    | u :: rest, acc =>
      if BaseCollector.untrusted env trust_sources u then
        go rest acc
      else
        go rest (setdefaultAppend acc u.resource_id u)

/-- Split a character list at the first occurrence of `%s`. -/
def findPercentS : List Char → Option (List Char × List Char)
  | [] => none
  | '%' :: 's' :: rest => some ([], rest)
  | c :: rest =>
    match findPercentS rest with
    | some (before, after) => some (c :: before, after)
    | none => none

/-- Model of Python `template % value` for string templates with one `%s`
directive: zero directives raise `TypeError` ("not all arguments
converted"), as does more than one ("not enough arguments"). -/
def applyTemplateStr (template value : String) : Except PyErr String :=
  match findPercentS template.data with
  | none => .error .typeError
  | some (before, after) =>
    match findPercentS after with
    | some _ => .error .typeError
    | none => .ok ⟨before ++ value.data ++ after⟩

/-- Characters after the first slash (model of
`entry["resource_id"][entry["resource_id"].index("/") + 1:]`; `none` is
the `ValueError` of `str.index` when no slash occurs). -/
def strAfterFirstSlash : List Char → Option (List Char)
  | [] => none
  | '/' :: rest => some rest
  | _ :: rest => strAfterFirstSlash rest

/-- Last slash-separated component (model of `url.split("/")[-1]`). -/
def lastSlashComponent (l : List Char) : List Char :=
  (splitOnChar '/' l).getLast?.getD []

/-- BaseCollector._get_os_distro: read the distro from the root volume's
image metadata when the instance is booted from volume (any lookup error
is caught and treated as "no root volume"), else from the image referenced
by the sample's `image_ref_url` metadata (lookup errors fall back to
"unknown"); a sample without the `image_ref_url` key raises `KeyError`. -/
def BaseCollector.get_os_distro (env : Env) (entry : Sample) :
    Except PyErr String :=
  let root_vol : Option RootVolume :=
    match env.get_root_volume entry.resource_id with
    | .ok v => v
    | .error _ => none
  match root_vol with
  | some rv =>
    .ok ((alookup (rv.volume_image_metadata.getD []) "os_distro").getD "unknown")
  | none =>
    match alookup entry.metadata "image_ref_url" with
    | none => .error .keyError
    | some image_url =>
      if image_url ≠ "" ∧ image_url ≠ "None" then
        let image_id : String := ⟨lastSlashComponent image_url.data⟩
        match env.get_image image_id with
        | .ok img => .ok (img.os_distro.getD "unknown")
        | .error _ => .ok "unknown"
      else .ok "unknown"

/-- ResInfo is a resource metadata record (string-valued dict). -/
abbrev ResInfo := List (String × String)

/-- Resources is the per-window `resources` accumulator dict. -/
abbrev Resources := List (String × ResInfo)

/-- Metadata extraction loop of `_get_resource_info` for one configured
field: first source key present in the sample's metadata wins (a missing
key is the caught `KeyError`); an optional template is applied to the
value, and a template error propagates. -/
def extractMetaField (entry : Sample) (params : MetaParams) :
    Except PyErr (Option String) :=
  go params.sources
where
  go : List String → Except PyErr (Option String)
    | [] => .ok none
    | source :: rest =>
      match alookup entry.metadata source with
      | none => go rest
      | some value =>
        match params.template with
        | some t => (applyTemplateStr t value).map some
        | none => .ok (some value)

/-- BaseCollector._get_resource_info: build the resource record from the
mapping's metadata rules, then, only if the resource id is not yet known
to the database, enrich it (os distro for virtual machines, container name
after the first slash of the raw sample resource id for object storage). -/
def BaseCollector.get_resource_info (env : Env)
    (project_id resource_id resource_type : String) (entry : Sample)
    (defined_meta : List (String × MetaParams)) : Except PyErr ResInfo := do
  let info ← goFields [("type", resource_type)] defined_meta
  if ¬ env.resource_exists project_id resource_id then
    let info ←
      if resource_type = "Virtual Machine" then do
        let distro ← BaseCollector.get_os_distro env entry
        pure (aset info "os_distro" distro)
      else pure info
    if resource_type = "Object Storage Container" then
      match strAfterFirstSlash entry.resource_id.data with
      | none => .error .valueError
      | some nm => pure (aset info "name" (⟨nm⟩ : String))
    else pure info
  else pure info
where
  goFields : ResInfo → List (String × MetaParams) → Except PyErr ResInfo
    | info, [] => .ok info
    | info, (field, params) :: rest => do
      let v ← extractMetaField entry params
      match v with
      | some value => goFields (aset info field value) rest
      | none => goFields info rest

end Distil

namespace Distil

/-- UsageEntry is one usage entry dict built by `_transform_usages`
(`start`/`end` are `startAt`/`endAt` here, `end` being reserved). -/
structure UsageEntry where
  service : String
  volume : ℚ
  unit : String
  resource_id : String
  startAt : PyDateTime
  endAt : PyDateTime
  tenant_id : String
deriving DecidableEq, Repr

/-- Event is one observable side effect of a collection run: a
`metrics_processor.usage(...)` notification (broadcast to every configured
metrics processor) or the atomic `db_api.usages_add` commit of a window. -/
inductive Event where
  | usage (e : UsageEntry)
  | usagesAdd (project_id : String) (resources : Resources)
      (entries : List UsageEntry) (watermark : PyDateTime)
deriving DecidableEq, Repr

/-- Truthiness of a transformer result (`if transformed:`): `None` and the
empty dict are falsy. -/
def truthyVolumes : Option Volumes → Bool
  | none => false
  | some l => l ≠ []

/-- Conversion of the value produced by the volume-source search (always a
`float`, hence a number) into the nullable volume field. -/
def valueToVol : Value → Option ℚ
  | .vnum q => some q
  | _ => none

/-- Volume-override stage of `_transform_usages` for one configured search
expression slot: when present and truthy, rewrite every sample's volume
with the first-match search result converted by `float` (required, not
optional, so absence raises `SearchExpressionNotFoundError`). -/
def applyVolumeKey (env : Env) (slot : Option SearchExpr)
    (entries : List Sample) : Except PyErr (List Sample) :=
  match slot with
  | none => .ok entries
  | some volume_sources =>
    if volume_sources.pyTruthy then
      entries.mapM fun sample => do
        let v ← BaseCollector.sample_search env "volume" volume_sources sample
          false (.vnum 0) (some floatConv)
        pure { sample with volume := valueToVol v }
    else .ok entries

/-- Volume-override stage of `_transform_usages`: a dict configuration is
applied once per key in `("sources", "source")`, in that order; any other
truthy value is coerced with `float` and set on every sample. -/
def applyVolumeOverride (env : Env) (volume_config : VolumeCfg)
    (entries : List Sample) : Except PyErr (List Sample) :=
  match volume_config with
  | .cfgDict sources source => do
    let entries ← applyVolumeKey env sources entries
    applyVolumeKey env source entries
  | .lit v =>
    entries.mapM fun sample => do
      let q ← pyFloat v
      pure { sample with volume := some q }

/-- Model of `res = resources.setdefault(res_id, res_info);
res.update(res_info)`: merge into an existing record (fields of `info`
overwrite), or append a new one. -/
def resSetdefaultUpdate (resources : Resources) (k : String)
    (info : ResInfo) : Resources :=
  match alookup resources k with
  | some old => aset resources k (info.foldl (fun acc kv => aset acc kv.1 kv.2) old)
  | none => resources ++ [(k, info)]

/-- Pre-transformation stage of the `_transform_usages` loop body for one
resource group: the mapping's sample filters (when configured non-empty)
followed by the volume overrides. -/
def BaseCollector.preprocess_entries (env : Env) (mapping : MeterMapping)
    (entries : List Sample) : Except PyErr (List Sample) :=
  match mapping.volume with
  | some volume_config =>
    if volume_config.pyTruthy then
      applyVolumeOverride env volume_config
        (if mapping.filters ≠ [] then
          entries.filter (BaseCollector.sample_filter env mapping.filters)
        else entries)
    else .ok (if mapping.filters ≠ [] then
        entries.filter (BaseCollector.sample_filter env mapping.filters)
      else entries)
  | none => .ok (if mapping.filters ≠ [] then
      entries.filter (BaseCollector.sample_filter env mapping.filters)
    else entries)

/-- Resource id persisted for a group: the post-template id, replaced by
its content hash (`hashlib.md5(res_id).hexdigest()`) for object storage
container mappings. -/
def BaseCollector.hashed_res_id (env : Env) (mapping : MeterMapping)
    (res_id : String) : String :=
  if mapping.type = "Object Storage Container" then env.md5_hex res_id
  else res_id

/-- Usage entries built from a transformer result: one per
(service, volume) pair, tagged with the window and project. -/
def BaseCollector.emit_entries (project_id : String)
    (mapping : MeterMapping) (window_start window_end : PyDateTime)
    (res_id2 : String) (transformed : Option Volumes) : List UsageEntry :=
  (transformed.getD []).map fun sv =>
    UsageEntry.mk sv.1 sv.2 mapping.unit res_id2 window_start window_end
      project_id

/-- Loop body of `_transform_usages` for one resource group: apply the
resource-id template, the mapping's sample filters and volume overrides,
skip the group if nothing remains, run the transformer, and on a truthy
result hash the id for object storage containers, upsert the resource
record, and emit one usage entry (and one metrics notification) per
(service, volume) pair.  Returns the emitted events alongside the updated
accumulators or the first uncaught error. -/
def BaseCollector.process_resource (env : Env) (project_id : String)
    (mapping : MeterMapping) (service : String) (transformer : TransformFn)
    (window_start window_end : PyDateTime) (resources : Resources)
    (usage_entries : List UsageEntry) (res_id_raw : String)
    (entries : List Sample) :
    List Event × Except PyErr (Resources × List UsageEntry) :=
  match applyTemplateStr (mapping.res_id_template.getD "%s") res_id_raw with
  | .error e => ([], .error e)
  | .ok res_id =>
    match BaseCollector.preprocess_entries env mapping entries with
    | .error e => ([], .error e)
    | .ok entries2 =>
      match entries2.getLast? with
      | none => ([], .ok (resources, usage_entries))
      | some lastEntry =>
        match transformer service entries2 window_start window_end with
        | .error e => ([], .error e)
        | .ok transformed =>
          if truthyVolumes transformed then
            match BaseCollector.get_resource_info env project_id
                (BaseCollector.hashed_res_id env mapping res_id)
                mapping.type lastEntry mapping.metadata with
            | .error e => ([], .error e)
            | .ok res_info =>
              ((BaseCollector.emit_entries project_id mapping window_start
                  window_end (BaseCollector.hashed_res_id env mapping res_id)
                  transformed).map Event.usage,
               .ok (resSetdefaultUpdate resources
                      (BaseCollector.hashed_res_id env mapping res_id)
                      res_info,
                    usage_entries ++ BaseCollector.emit_entries project_id
                      mapping window_start window_end
                      (BaseCollector.hashed_res_id env mapping res_id)
                      transformed))
          else ([], .ok (resources, usage_entries))

/-- Iteration of `_transform_usages` over the grouped resources, threading
the `resources`/`usage_entries` accumulators; events already emitted are
kept when a later group raises (the metrics notifications have already
happened). -/
def BaseCollector.transform_usages_go (env : Env) (project_id : String)
    (mapping : MeterMapping) (service : String) (transformer : TransformFn)
    (window_start window_end : PyDateTime) :
    List (String × List Sample) → Resources → List UsageEntry →
    List Event × Except PyErr (Resources × List UsageEntry)
  | [], resources, usage_entries => ([], .ok (resources, usage_entries))
  | (res_id, entries) :: rest, resources, usage_entries =>
    match BaseCollector.process_resource env project_id mapping service
        transformer window_start window_end resources usage_entries
        res_id entries with
    | (evts, .error e) => (evts, .error e)
    | (evts, .ok (resources', usage_entries')) =>
      let (evts', r) := BaseCollector.transform_usages_go env project_id
        mapping service transformer window_start window_end rest
        resources' usage_entries'
      (evts ++ evts', r)

/-- BaseCollector._transform_usages: resolve the service name (mapping
`service` falling back to the meter name) and the transformer from the
registry, then process every resource group. -/
def BaseCollector.transform_usages (env : Env) (project_id : String)
    (usage_by_resource : List (String × List Sample))
    (mapping : MeterMapping) (window_start window_end : PyDateTime)
    (resources : Resources) (usage_entries : List UsageEntry) :
    List Event × Except PyErr (Resources × List UsageEntry) :=
  let service := mapping.service.getD mapping.meter
  let transformer :=
    env.get_transformer mapping.transformer mapping.transformer_config
  BaseCollector.transform_usages_go env project_id mapping service
    transformer window_start window_end usage_by_resource resources
    usage_entries

/-- Project is the project dict handed to `collect_usage` (id and name). -/
structure Project where
  id : String
  name : String

/-- CollectorConf is the configuration the collector reads: the loaded
meter mappings document and `CONF.collector.trust_sources`. -/
structure CollectorConf where
  meter_mappings : List MeterMapping
  trust_sources : List String

/-- Body of the per-window `try` block of `collect_usage`: for every meter
mapping, fetch samples, filter and group them, and transform them,
threading the window's `resources` and `usage_entries` accumulators. -/
def BaseCollector.process_mappings (env : Env) (conf : CollectorConf)
    (project_id : String) (window_start window_end : PyDateTime) :
    List MeterMapping → Resources → List UsageEntry →
    List Event × Except PyErr (Resources × List UsageEntry)
  | [], resources, usage_entries => ([], .ok (resources, usage_entries))
  | mapping :: rest, resources, usage_entries =>
    match env.get_meter project_id mapping.meter window_start window_end with
    | .error e => ([], .error e)
    | .ok usage =>
      let usage_by_resource :=
        BaseCollector.filter_and_group env conf.trust_sources usage
      match BaseCollector.transform_usages env project_id usage_by_resource
          mapping window_start window_end resources usage_entries with
      | (evts, .error e) => (evts, .error e)
      | (evts, .ok (resources', usage_entries')) =>
        let (evts', r) := BaseCollector.process_mappings env conf project_id
          window_start window_end rest resources' usage_entries'
        (evts ++ evts', r)

/-- Processing of one collection window for a project: all meter mappings
over fresh (empty) accumulators. -/
def BaseCollector.process_window (env : Env) (conf : CollectorConf)
    (project : Project) (window_start window_end : PyDateTime) :
    List Event × Except PyErr (Resources × List UsageEntry) :=
  BaseCollector.process_mappings env conf project.id window_start window_end
    conf.meter_mappings [] []

/-- BaseCollector.collect_usage: process the given windows in order; a
window whose mappings all succeed is committed atomically with
`db_api.usages_add(project, resources, usage_entries, window_end)` (the
`usagesAdd` trace event); any exception inside a window aborts the run
with `False`, committing nothing for that window and not touching the
remaining windows. -/
def BaseCollector.collect_usage (env : Env) (conf : CollectorConf)
    (project : Project) :
    List (PyDateTime × PyDateTime) → Bool × List Event
  | [] => (true, [])
  | (window_start, window_end) :: rest =>
    match BaseCollector.process_window env conf project window_start
        window_end with
    | (evts, .ok (resources, usage_entries)) =>
      let (ok, tr) := BaseCollector.collect_usage env conf project rest
      (ok, evts ++ Event.usagesAdd project.id resources usage_entries
        window_end :: tr)
    | (evts, .error _) => (false, evts)

end Distil

namespace Distil

/-! Collector service (distil/service/collector.py, `_collect_usage`
per-project loop). -/

/-- ProjectLock is one row of `db_api.get_project_locks` (owner identity). -/
structure ProjectLock where
  owner : String
deriving DecidableEq, Repr

/-- DbProject is the record returned by `db_api.project_add` (only the
`last_collected` watermark is read). -/
structure DbProject where
  last_collected : PyDateTime

/-- DuplicateException is raised by the lock acquisition when another
collector instance won the race. -/
inductive SvcErr where
  | duplicateException
deriving DecidableEq, Repr

/-- SvcEnv bundles the collaborators of the per-project loop of
`CollectorService._collect_usage`.  Modelled from the spec are
`get_project_locks`, `acquire_project_lock` (the `db_api.project_lock`
context manager) and `project_add`, whose implementations live in
distil/db/api.py, missing from the sources at hand (spec §6 persistence
interface), and `get_windows` of distil/common/general.py (spec §3
collection windows).  `collector_collect_usage` is the boolean-returning
`self.collector.collect_usage` call; `last_collect` and `end_time` are the
cycle-level values computed before the loop. -/
structure SvcEnv where
  get_project_locks : String → List ProjectLock
  acquire_project_lock : String → String → Except SvcErr Unit
  project_add : Project → PyDateTime → DbProject
  get_windows : PyDateTime → PyDateTime → List (PyDateTime × PyDateTime)
  collector_collect_usage : Project → List (PyDateTime × PyDateTime) → Bool
  last_collect : PyDateTime
  end_time : PyDateTime

/-- ProjectOutcome is what the loop body does with one project. -/
inductive ProjectOutcome where
  | skippedHeldByOther
  | skippedDuplicate
  | upToDate
  | succeeded
  | failed
deriving DecidableEq, Repr

/-- Locked part of the loop body: acquire the advisory lock (a
`DuplicateException` is caught, logged at warning level, and skips the
project), resolve the project record, compute its windows, and either
record it as up to date or run the collector over the windows. -/
def CollectorService.lock_and_collect (env : SvcEnv) (identifier : String)
    (project : Project) : ProjectOutcome :=
  match env.acquire_project_lock project.id identifier with
  | .error _ => .skippedDuplicate
  | .ok _ =>
    let db_project := env.project_add project env.last_collect
    let windows := env.get_windows db_project.last_collected env.end_time
    if windows = [] then .upToDate
    else if env.collector_collect_usage project windows then .succeeded
    else .failed

/-- Loop body of `_collect_usage` for one project: if an advisory lock
exists and is owned by a different collector identity, skip the project
(not an error); otherwise lock and collect. -/
def CollectorService.process_project (env : SvcEnv) (identifier : String)
    (project : Project) : ProjectOutcome :=
  match env.get_project_locks project.id with
  | lock :: _ =>
    if lock.owner ≠ identifier then .skippedHeldByOther
    else CollectorService.lock_and_collect env identifier project
  | [] => CollectorService.lock_and_collect env identifier project

/-- Per-project loop of `_collect_usage`: every project in the ordered
list is handled in turn; no outcome aborts the cycle. -/
def CollectorService.collect_cycle (env : SvcEnv) (identifier : String) :
    List Project → List (String × ProjectOutcome)
  | [] => []
  | project :: rest =>
    (project.id, CollectorService.process_project env identifier project)
      :: CollectorService.collect_cycle env identifier rest

end Distil

namespace Distil

/-! Derived notions used by the statements below. -/

/-- Commit events of a trace. -/
def Event.isCommit : Event → Bool
  | .usagesAdd _ _ _ _ => true
  | .usage _ => false

/-- Usage-notification events of a trace. -/
def Event.isUsage : Event → Bool
  | .usage _ => true
  | .usagesAdd _ _ _ _ => false

/-- Commits recorded in a trace, in order. -/
def commitsOf (tr : List Event) : List Event := tr.filter Event.isCommit

/-- Success of one window: every configured meter mapping of the window was
processed without an exception. -/
def BaseCollector.window_ok (env : Env) (conf : CollectorConf)
    (project : Project) (w : PyDateTime × PyDateTime) : Bool :=
  match (BaseCollector.process_window env conf project w.1 w.2).2 with
  | .ok _ => true
  | .error _ => false

/-- Metrics notifications emitted while processing one window. -/
def BaseCollector.window_events (env : Env) (conf : CollectorConf)
    (project : Project) (w : PyDateTime × PyDateTime) : List Event :=
  (BaseCollector.process_window env conf project w.1 w.2).1

/-- Resources accumulated by a successful window ([] for a failed one). -/
def BaseCollector.window_resources (env : Env) (conf : CollectorConf)
    (project : Project) (w : PyDateTime × PyDateTime) : Resources :=
  match (BaseCollector.process_window env conf project w.1 w.2).2 with
  | .ok (resources, _) => resources
  | .error _ => []

/-- Usage entries accumulated by a successful window ([] for a failed one). -/
def BaseCollector.window_entries (env : Env) (conf : CollectorConf)
    (project : Project) (w : PyDateTime × PyDateTime) : List UsageEntry :=
  match (BaseCollector.process_window env conf project w.1 w.2).2 with
  | .ok (_, entries) => entries
  | .error _ => []

/-- Commit of one window: the `usages_add` call with the window's
resources, usage entries, and the window end as the new watermark. -/
def BaseCollector.window_commit (env : Env) (conf : CollectorConf)
    (project : Project) (w : PyDateTime × PyDateTime) : Event :=
  .usagesAdd project.id (BaseCollector.window_resources env conf project w)
    (BaseCollector.window_entries env conf project w) w.2

/-- Timestamp embedded in a sample, parsed by whichever of the two
accepted formats matches (fractional seconds first). -/
def embeddedTimestamp (smp : Sample) : Option PyDateTime :=
  match strptimeFrac smp.timestamp with
  | some t => some t
  | none => strptimeNoFrac smp.timestamp

/-- Membership of a sample's embedded timestamp in `[start, finish)`. -/
def embeddedInWindow (smp : Sample) (start finish : PyDateTime) : Bool :=
  match embeddedTimestamp smp with
  | some t => start.toSec ≤ t.toSec ∧ t.toSec < finish.toSec
  | none => false

/-- Sum of the volumes (null as 0) of exactly those samples whose embedded
timestamp lies in `[start, finish)` — the sum-integration result as the
spec states it. -/
def sumIntegrationSpec (start finish : PyDateTime) : List Sample → ℚ
  | [] => 0
  | smp :: rest =>
    (if embeddedInWindow smp start finish then smp.volume.getD 0 else 0)
      + sumIntegrationSpec start finish rest

/-- Maximum (0 if none) of the volumes below the fixed ceiling 2 — the
value the threshold-state-sum transformer actually scales by hours. -/
def thresholdStateMax (data : List Sample) : ℚ :=
  match (data.filterMap Sample.volume).filter (fun v => v < 2) with
  | [] => 0
  | x :: xs => xs.foldl max x

/-- Sum of the volumes of the samples whose volume is below the fixed
ceiling 2, following the words of the spec ("sums only samples whose
volume is below a fixed ceiling"); null volumes count as 0. -/
def thresholdStateSumSpec (data : List Sample) : ℚ :=
  ((data.filterMap Sample.volume).filter (fun v => v < 2)).foldl
    (fun a v => a + v) 0

end Distil


namespace Distil

/-! Helper lemmas on grouping. -/

/-- Samples in a group after `setdefaultAppend` come from a group of the
old dict with the same key, or are the appended sample under its key. -/
theorem mem_setdefaultAppend_inv (k : String) (u : Sample) :
    ∀ (gs : List (String × List Sample)) (g : String × List Sample),
      g ∈ setdefaultAppend gs k u → ∀ s ∈ g.2,
      (∃ g₀ ∈ gs, g₀.1 = g.1 ∧ s ∈ g₀.2) ∨ (s = u ∧ g.1 = k) := by
  intro gs
  induction gs with
  | nil =>
    intro g hg s hs
    simp only [setdefaultAppend, List.mem_singleton] at hg
    subst hg
    simp only [List.mem_singleton] at hs
    exact Or.inr ⟨hs, rfl⟩
  | cons hd tl ih =>
    obtain ⟨k', l⟩ := hd
    intro g hg s hs
    simp only [setdefaultAppend] at hg
    by_cases hk : k' = k
    · rw [if_pos hk] at hg
      rcases List.mem_cons.1 hg with hg | hg
      · subst hg
        simp only [List.mem_append, List.mem_singleton] at hs
        rcases hs with hs | hs
        · exact Or.inl ⟨(k', l), List.mem_cons_self _ _, rfl, hs⟩
        · exact Or.inr ⟨hs, hk.symm ▸ rfl⟩
      · exact Or.inl ⟨g, List.mem_cons_of_mem _ hg, rfl, hs⟩
    · rw [if_neg hk] at hg
      rcases List.mem_cons.1 hg with hg | hg
      · subst hg
        exact Or.inl ⟨(k', l), List.mem_cons_self _ _, rfl, hs⟩
      · rcases ih g hg s hs with ⟨g₀, hg₀, hkey, hmem⟩ | h
        · exact Or.inl ⟨g₀, List.mem_cons_of_mem _ hg₀, hkey, hmem⟩
        · exact Or.inr h

/-- Membership in a group survives `setdefaultAppend`. -/
theorem mem_setdefaultAppend_preserve (k : String) (u : Sample) :
    ∀ (gs : List (String × List Sample)) (g : String × List Sample),
      g ∈ gs → ∀ s ∈ g.2,
      ∃ g' ∈ setdefaultAppend gs k u, g'.1 = g.1 ∧ s ∈ g'.2 := by
  intro gs
  induction gs with
  | nil => intro g hg; cases hg
  | cons hd tl ih =>
    obtain ⟨k', l⟩ := hd
    intro g hg s hs
    simp only [setdefaultAppend]
    by_cases hk : k' = k
    · rw [if_pos hk]
      rcases List.mem_cons.1 hg with hg | hg
      · subst hg
        exact ⟨(k', l ++ [u]), List.mem_cons_self _ _, rfl, by
          simp [List.mem_append, hs]⟩
      · exact ⟨g, List.mem_cons_of_mem _ hg, rfl, hs⟩
    · rw [if_neg hk]
      rcases List.mem_cons.1 hg with hg | hg
      · subst hg
        exact ⟨(k', l), List.mem_cons_self _ _, rfl, hs⟩
      · obtain ⟨g', hg', hkey, hmem⟩ := ih g hg s hs
        exact ⟨g', List.mem_cons_of_mem _ hg', hkey, hmem⟩

/-- The appended sample is in the group keyed by `k` afterwards. -/
theorem mem_setdefaultAppend_self (k : String) (u : Sample) :
    ∀ gs : List (String × List Sample),
      ∃ g ∈ setdefaultAppend gs k u, g.1 = k ∧ u ∈ g.2 := by
  intro gs
  induction gs with
  | nil =>
    exact ⟨(k, [u]), List.mem_singleton.2 rfl, rfl, List.mem_singleton.2 rfl⟩
  | cons hd tl ih =>
    obtain ⟨k', l⟩ := hd
    simp only [setdefaultAppend]
    by_cases hk : k' = k
    · rw [if_pos hk]
      exact ⟨(k', l ++ [u]), List.mem_cons_self _ _, hk, by simp⟩
    · rw [if_neg hk]
      obtain ⟨g, hg, hkey, hmem⟩ := ih
      exact ⟨g, List.mem_cons_of_mem _ hg, hkey, hmem⟩

/-- Samples in the groups of the `_filter_and_group` loop come from the
accumulator or are kept (not untrusted) input samples. -/
theorem filter_and_group_go_inv (env : Env) (ts : List String) :
    ∀ (usage : List Sample) (acc : List (String × List Sample))
      (g : String × List Sample),
      g ∈ BaseCollector.filter_and_group.go env ts usage acc →
      ∀ s ∈ g.2,
        (∃ g₀ ∈ acc, g₀.1 = g.1 ∧ s ∈ g₀.2) ∨
          (s ∈ usage ∧ BaseCollector.untrusted env ts s = false) := by
  intro usage
  induction usage with
  | nil =>
    intro acc g hg s hs
    simp only [BaseCollector.filter_and_group.go] at hg
    exact Or.inl ⟨g, hg, rfl, hs⟩
  | cons u rest ih =>
    intro acc g hg s hs
    simp only [BaseCollector.filter_and_group.go] at hg
    by_cases hu : BaseCollector.untrusted env ts u
    · rw [if_pos hu] at hg
      rcases ih acc g hg s hs with h | ⟨hin, hkept⟩
      · exact Or.inl h
      · exact Or.inr ⟨List.mem_cons_of_mem _ hin, hkept⟩
    · rw [if_neg hu] at hg
      rcases ih _ g hg s hs with ⟨g₀, hg₀, hkey, hmem⟩ | ⟨hin, hkept⟩
      · rcases mem_setdefaultAppend_inv _ _ _ _ hg₀ s hmem with
          ⟨g₁, hg₁, hkey₁, hmem₁⟩ | ⟨hsu, _⟩
        · exact Or.inl ⟨g₁, hg₁, by rw [hkey₁, hkey], hmem₁⟩
        · subst hsu
          exact Or.inr ⟨List.mem_cons_self _ _, by simpa using hu⟩
      · exact Or.inr ⟨List.mem_cons_of_mem _ hin, hkept⟩

/-- Group membership in the accumulator survives the rest of the
`_filter_and_group` loop. -/
theorem filter_and_group_go_acc_mem (env : Env) (ts : List String) :
    ∀ (usage : List Sample) (acc : List (String × List Sample))
      (g : String × List Sample),
      g ∈ acc → ∀ s ∈ g.2,
      ∃ g' ∈ BaseCollector.filter_and_group.go env ts usage acc,
        g'.1 = g.1 ∧ s ∈ g'.2 := by
  intro usage
  induction usage with
  | nil =>
    intro acc g hg s hs
    exact ⟨g, by simpa [BaseCollector.filter_and_group.go] using hg, rfl, hs⟩
  | cons u rest ih =>
    intro acc g hg s hs
    simp only [BaseCollector.filter_and_group.go]
    by_cases hu : BaseCollector.untrusted env ts u
    · rw [if_pos hu]
      exact ih acc g hg s hs
    · rw [if_neg hu]
      obtain ⟨g', hg', hkey, hmem⟩ :=
        mem_setdefaultAppend_preserve u.resource_id u acc g hg s hs
      obtain ⟨g'', hg'', hkey', hmem'⟩ := ih _ g' hg' s hmem
      exact ⟨g'', hg'', by rw [hkey', hkey], hmem'⟩

/-- A kept input sample ends up in the group of its resource id. -/
theorem filter_and_group_go_mem (env : Env) (ts : List String) :
    ∀ (usage : List Sample) (acc : List (String × List Sample)) (u : Sample),
      u ∈ usage → BaseCollector.untrusted env ts u = false →
      ∃ g ∈ BaseCollector.filter_and_group.go env ts usage acc,
        g.1 = u.resource_id ∧ u ∈ g.2 := by
  intro usage
  induction usage with
  | nil => intro acc u hu; cases hu
  | cons v rest ih =>
    intro acc u hu hkept
    rcases List.mem_cons.1 hu with hu | hu
    · subst hu
      simp only [BaseCollector.filter_and_group.go]
      rw [if_neg (by simp [hkept])]
      obtain ⟨g, hg, hkey, hmem⟩ :=
        mem_setdefaultAppend_self u.resource_id u acc
      obtain ⟨g', hg', hkey', hmem'⟩ :=
        filter_and_group_go_acc_mem env ts rest _ g hg u hmem
      exact ⟨g', hg', by rw [hkey', hkey], hmem'⟩
    · simp only [BaseCollector.filter_and_group.go]
      by_cases hv : BaseCollector.untrusted env ts v
      · rw [if_pos hv]; exact ih acc u hu hkept
      · rw [if_neg hv]; exact ih _ u hu hkept

end Distil

namespace Distil

/-! Claim C5 — trust filtering. -/

/-- C5: when at least one trusted-source pattern is configured, every raw
sample whose source matches none of the configured patterns (the
`untrusted` condition) is dropped by `_filter_and_group` before grouping,
so no group — hence no derived usage entry — contains it; with an empty
configured trusted-source set, no sample is dropped: every input sample is
in the group of its resource id. -/
theorem c5_trust_filtering (env : Env) (trust_sources : List String)
    (usage : List Sample) :
    (∀ u, BaseCollector.untrusted env trust_sources u = true →
      ∀ g ∈ BaseCollector.filter_and_group env trust_sources usage,
        u ∉ g.2)
    ∧ (trust_sources = [] →
      ∀ u ∈ usage,
        ∃ g ∈ BaseCollector.filter_and_group env trust_sources usage,
          g.1 = u.resource_id ∧ u ∈ g.2) := by
  constructor
  · intro u hu g hg hmem
    have hg' : g ∈ BaseCollector.filter_and_group.go env trust_sources usage [] := hg
    rcases filter_and_group_go_inv env trust_sources usage [] g hg' u hmem with
      ⟨g₀, hg₀, _, _⟩ | ⟨_, hkept⟩
    · exact absurd hg₀ (List.not_mem_nil _)
    · rw [hu] at hkept
      cases hkept
  · intro hts u hu
    exact filter_and_group_go_mem env trust_sources usage [] u hu
      (by simp [BaseCollector.untrusted, hts])

/-- Concrete environment for the C5 witness: `re.match` modelled as exact
string equality of pattern and source. -/
def c5Env : Env where
  reMatch := fun p s => p = s
  jmesSearch := fun _ _ => .vnull
  md5_hex := fun s => s
  get_meter := fun _ _ _ _ => .ok []
  get_transformer := fun _ _ => fun _ _ _ _ => .ok none
  resource_exists := fun _ _ => true
  get_root_volume := fun _ => .ok none
  get_image := fun _ => .ok ⟨none⟩

/-- Untrusted concrete sample for the C5 witness. -/
def c5Bad : Sample := ⟨"r1", "evil", "t", none, [], "p"⟩

/-- Trusted concrete sample for the C5 witness. -/
def c5Good : Sample := ⟨"r1", "good", "t", none, [], "p"⟩

/-- Witness for C5 at concrete inputs: the untrusted sample is in no group
when a pattern is configured, and with no configured patterns a sample is
kept in its resource's group. -/
theorem c5_trust_filtering_witness :
    (∀ g ∈ BaseCollector.filter_and_group c5Env ["good"] [c5Good, c5Bad],
      c5Bad ∉ g.2)
    ∧ (∃ g ∈ BaseCollector.filter_and_group c5Env [] [c5Bad],
      g.1 = c5Bad.resource_id ∧ c5Bad ∈ g.2) :=
  ⟨(c5_trust_filtering c5Env ["good"] [c5Good, c5Bad]).1 c5Bad (by decide),
   (c5_trust_filtering c5Env [] [c5Bad]).2 rfl c5Bad (by decide)⟩

/-! Claim C7 — lock contention handling in the service cycle. -/

/-- C7: the per-project loop of `_collect_usage` handles every project of
the cycle in turn (no outcome aborts it); a project whose advisory lock is
held by a different collector identity is skipped, not failed; and when the
lock acquisition raises `DuplicateException` (the lock being absent or
owned by this identity at the read), the exception is caught and the
project is likewise skipped. -/
theorem c7_lock_contention (env : SvcEnv) (identifier : String)
    (projects : List Project) (project : Project) :
    (CollectorService.collect_cycle env identifier projects =
      projects.map
        (fun p => (p.id, CollectorService.process_project env identifier p)))
    ∧ (∀ lock rest, env.get_project_locks project.id = lock :: rest →
        lock.owner ≠ identifier →
        CollectorService.process_project env identifier project =
          .skippedHeldByOther)
    ∧ ((env.get_project_locks project.id = [] ∨
        ∃ lock rest, env.get_project_locks project.id = lock :: rest ∧
          lock.owner = identifier) →
        env.acquire_project_lock project.id identifier =
          .error .duplicateException →
        CollectorService.process_project env identifier project =
          .skippedDuplicate) := by
  refine ⟨?_, ?_, ?_⟩
  · induction projects with
    | nil => rfl
    | cons p rest ih => simp [CollectorService.collect_cycle, ih]
  · intro lock rest hlocks hneq
    unfold CollectorService.process_project
    rw [hlocks]
    simp [hneq]
  · intro hlocks hacq
    unfold CollectorService.process_project
    rcases hlocks with h | ⟨lock, rest, h, howner⟩
    · rw [h]
      unfold CollectorService.lock_and_collect
      rw [hacq]
    · rw [h]
      simp only [howner, ne_eq, not_true_eq_false, if_false]
      unfold CollectorService.lock_and_collect
      rw [hacq]

/-- Concrete service environment for the C7 witness: project "p1" is
locked by another identity, and every acquisition attempt races and
raises `DuplicateException`. -/
def c7Env : SvcEnv where
  get_project_locks := fun pid => if pid = "p1" then [⟨"other"⟩] else []
  acquire_project_lock := fun _ _ => .error .duplicateException
  project_add := fun _ lc => ⟨lc⟩
  get_windows := fun _ _ => []
  collector_collect_usage := fun _ _ => true
  last_collect := ⟨2024, 1, 1, 0, 0, 0, 0⟩
  end_time := ⟨2024, 1, 2, 0, 0, 0, 0⟩

/-- Witness for C7 at concrete inputs: a project locked by a different
identity is skipped, and a raced acquisition is caught and skipped. -/
theorem c7_lock_contention_witness :
    CollectorService.process_project c7Env "me" ⟨"p1", "a"⟩ =
      .skippedHeldByOther
    ∧ CollectorService.process_project c7Env "me" ⟨"p2", "b"⟩ =
      .skippedDuplicate :=
  ⟨(c7_lock_contention c7Env "me" [] ⟨"p1", "a"⟩).2.1 ⟨"other"⟩ []
      (by decide) (by decide),
   (c7_lock_contention c7Env "me" [] ⟨"p2", "b"⟩).2.2
      (Or.inl (by decide)) rfl⟩

/-! Claim C10 — `_sample_search` fallback and first-match semantics. -/

/-- C10: when no search expression yields a non-null value on the sample,
`_sample_search` with `optional=True` returns the default value without
raising, while `optional=False` raises `SearchExpressionNotFoundError`;
when some expression yields a value, the first expression producing a
non-null value wins. -/
theorem c10_sample_search (env : Env) (field : String)
    (expression : SearchExpr) (sample : Sample) (dflt : Value)
    (value_type : Option ValueConv) :
    ((∀ ex ∈ expression.toList, env.jmesSearch ex sample = .vnull) →
      BaseCollector.sample_search env field expression sample true dflt
          value_type = .ok dflt ∧
      BaseCollector.sample_search env field expression sample false dflt
          value_type = .error .searchExpressionNotFound)
    ∧ (∀ (pre post : List String) (ex : String) (v : Value) (optional : Bool),
        expression.toList = pre ++ ex :: post →
        (∀ p ∈ pre, env.jmesSearch p sample = .vnull) →
        env.jmesSearch ex sample = v → v ≠ .vnull →
        BaseCollector.sample_search env field expression sample optional dflt
          none = .ok v) := by
  have go_nulls : ∀ (opt : Bool) (vt : Option ValueConv) (l : List String),
      (∀ ex ∈ l, env.jmesSearch ex sample = .vnull) →
      BaseCollector.sample_search.go env sample opt dflt vt l =
        (if opt then .ok dflt else .error .searchExpressionNotFound) := by
    intro opt vt l
    induction l with
    | nil => intro _; simp [BaseCollector.sample_search.go]
    | cons ex rest ih =>
      intro h
      have hex : env.jmesSearch ex sample = .vnull :=
        h ex (List.mem_cons_self _ _)
      simp only [BaseCollector.sample_search.go, hex, ne_eq,
        not_true_eq_false, if_neg, ite_self]
      simpa using ih (fun e he => h e (List.mem_cons_of_mem _ he))
  constructor
  · intro hnull
    constructor
    · show BaseCollector.sample_search.go env sample true dflt value_type
        expression.toList = _
      rw [go_nulls true value_type _ hnull]
      rfl
    · show BaseCollector.sample_search.go env sample false dflt value_type
        expression.toList = _
      rw [go_nulls false value_type _ hnull]
      rfl
  · intro pre post ex v optional hsplit hpre hex hv
    show BaseCollector.sample_search.go env sample optional dflt none
      expression.toList = _
    rw [hsplit]
    clear hsplit
    induction pre with
    | nil =>
      simp only [List.nil_append, BaseCollector.sample_search.go, hex]
      rw [if_pos (by simpa using hv)]
    | cons p ptl ih =>
      have hp : env.jmesSearch p sample = .vnull :=
        hpre p (List.mem_cons_self _ _)
      simp only [List.cons_append, BaseCollector.sample_search.go, hp]
      rw [if_neg (by simp)]
      exact ih (fun e he => hpre e (List.mem_cons_of_mem _ he))

/-- Concrete environment for the C10 witness: one metadata key resolves to
a number, everything else to null. -/
def c10Env : Env :=
  { c5Env with jmesSearch := fun ex _ => if ex = "hit" then .vnum 7 else .vnull }

/-- Sample used by the C10 witness. -/
def c10Sample : Sample := ⟨"r", "s", "t", none, [], "p"⟩

/-- Witness for C10 at concrete inputs: all-null searches give the default
with `optional=True` and the not-found error otherwise, and the first
non-null expression wins over later ones. -/
theorem c10_sample_search_witness :
    (BaseCollector.sample_search c10Env "f" (.several ["a", "b"]) c10Sample
      true (.vnum 0) none = .ok (.vnum 0)
    ∧ BaseCollector.sample_search c10Env "f" (.several ["a", "b"]) c10Sample
      false (.vnum 0) none = .error .searchExpressionNotFound)
    ∧ BaseCollector.sample_search c10Env "f" (.several ["a", "hit", "b"])
      c10Sample false (.vnum 0) none = .ok (.vnum 7) :=
  ⟨(c10_sample_search c10Env "f" (.several ["a", "b"]) c10Sample (.vnum 0)
      none).1 (by decide),
   (c10_sample_search c10Env "f" (.several ["a", "hit", "b"]) c10Sample
      (.vnum 0) none).2 ["a"] ["b"] "hit" (.vnum 7) false rfl (by decide)
      (by decide) (by decide)⟩

end Distil

namespace Distil

/-! Claims C2, C3, C4 — transformer behaviour. -/

/-- Monadic bind on a successful `Except` value reduces to the
continuation. -/
theorem exceptOkBind {ε α β : Type} (a : α) (f : α → Except ε β) :
    ((Except.ok a : Except ε α) >>= f) = f a := rfl

/-- Monadic bind on a failed `Except` value short-circuits. -/
theorem exceptErrorBind {ε α β : Type} (e : ε) (f : α → Except ε β) :
    ((Except.error e : Except ε α) >>= f) = Except.error e := rfl

/-- Concrete sample constructor used by the transformer claims: only the
timestamp and volume matter to these transformers. -/
def sampleAt (ts : String) (vol : Option ℚ) : Sample :=
  ⟨"res", "src", ts, vol, [], "proj"⟩

/-- Window start 2014-01-01T00:00:00 used by concrete transformer runs. -/
def w0 : PyDateTime := ⟨2014, 1, 1, 0, 0, 0, 0⟩

/-- Window end 2014-01-01T01:00:00 used by concrete transformer runs. -/
def w1 : PyDateTime := ⟨2014, 1, 1, 1, 0, 0, 0⟩

/-- With every volume present, the network-service volume filter returns
exactly the volumes below the ceiling 2, in order. -/
theorem filterVolumes_all_some :
    ∀ data : List Sample, (∀ smp ∈ data, smp.volume.isSome) →
      NetworkServiceTransformer.filterVolumes data =
        .ok ((data.filterMap Sample.volume).filter (fun v => v < 2)) := by
  intro data
  induction data with
  | nil => intro _; rfl
  | cons v rest ih =>
    intro h
    obtain ⟨q, hq⟩ := Option.isSome_iff_exists.1 (h v (List.mem_cons_self _ _))
    have ihr := ih (fun smp hs => h smp (List.mem_cons_of_mem _ hs))
    simp only [NetworkServiceTransformer.filterVolumes, hq, ihr,
      List.filterMap_cons, List.filter_cons]
    by_cases hlt : q < 2
    · simp [hlt, Except.bind]
    · simp [hlt, Except.bind]

/-- C3 (corrected): on null-free sample lists, the threshold-state-sum
(network service) transformer returns the MAXIMUM (not the sum) of the
volumes below the fixed ceiling 2 — 0 when none remain — scaled by the
whole floored number of hours in the window. -/
theorem c3_threshold_state_max (name : String) (data : List Sample)
    (start finish : PyDateTime) (h : ∀ smp ∈ data, smp.volume.isSome) :
    NetworkServiceTransformer.transform_usage name data start finish =
      .ok (some [(name, thresholdStateMax data * floorHours start finish)]) := by
  unfold NetworkServiceTransformer.transform_usage
  rw [filterVolumes_all_some data h]
  unfold thresholdStateMax
  rfl

/-- Data of the C3 counterexample and witness: two active (volume 1)
samples in a one-hour window. -/
def c3Data : List Sample := [sampleAt "2014-01-01T00:00:00" (some 1),
  sampleAt "2014-01-01T00:10:00" (some 1)]

/-- Counterexample to C3 as stated: for two volume-1 samples over a
one-hour window the transformer returns 1 (the maximum), while the sum of
the below-ceiling volumes scaled by floored hours — what the claim
prescribes — is 2. -/
theorem c3_counterexample :
    NetworkServiceTransformer.transform_usage "m" c3Data w0 w1 =
      .ok (some [("m", 1)])
    ∧ thresholdStateSumSpec c3Data * floorHours w0 w1 = 2
    ∧ NetworkServiceTransformer.transform_usage "m" c3Data w0 w1 ≠
      .ok (some [("m", thresholdStateSumSpec c3Data * floorHours w0 w1)]) := by
  have h1 : NetworkServiceTransformer.transform_usage "m" c3Data w0 w1 =
      .ok (some [("m", 1)]) := by with_unfolding_all rfl
  have h2 : thresholdStateSumSpec c3Data * floorHours w0 w1 = 2 := by
    with_unfolding_all rfl
  refine ⟨h1, h2, ?_⟩
  rw [h1, h2]
  intro h
  simp only [Except.ok.injEq, Option.some.injEq, List.cons.injEq,
    Prod.mk.injEq] at h
  have : (1 : ℚ) = 2 := h.1.2
  norm_num at this

/-- Witness for the amended C3 at the concrete counterexample data. -/
theorem c3_threshold_state_max_witness :
    (∀ smp ∈ c3Data, smp.volume.isSome)
    ∧ NetworkServiceTransformer.transform_usage "m" c3Data w0 w1 =
      .ok (some [("m", thresholdStateMax c3Data * floorHours w0 w1)]) :=
  ⟨by decide, c3_threshold_state_max "m" c3Data w0 w1 (by decide)⟩

/-- Parse hypothesis used by the sum-integration results: the sample's
timestamp is accepted by one of the two strptime formats. -/
def parseable (smp : Sample) : Prop :=
  (strptimeFrac smp.timestamp).isSome ∨ (strptimeNoFrac smp.timestamp).isSome

instance (smp : Sample) : Decidable (parseable smp) := by
  unfold parseable; infer_instance

/-- A parseable timestamp gives the same datetime through the
SumTransformer fallback chain and through `embeddedTimestamp`. -/
theorem parseTimestamp_embedded (smp : Sample) (h : parseable smp) :
    ∃ t, SumTransformer.parseTimestamp smp.timestamp = .ok t ∧
      embeddedTimestamp smp = some t := by
  rcases hf : strptimeFrac smp.timestamp with _ | t
  · rcases hn : strptimeNoFrac smp.timestamp with _ | t
    · rcases h with h | h
      · rw [hf] at h; cases h
      · rw [hn] at h; cases h
    · exact ⟨t, by simp [SumTransformer.parseTimestamp, hf, hn],
        by simp [embeddedTimestamp, hf, hn]⟩
  · exact ⟨t, by simp [SumTransformer.parseTimestamp, hf],
      by simp [embeddedTimestamp, hf]⟩

/-- Accumulator form of the summation loop: given parseable timestamps it
never fails and adds exactly the in-window volumes. -/
theorem sumVolumes_spec (start finish : PyDateTime) :
    ∀ (data : List Sample) (acc : ℚ), (∀ smp ∈ data, parseable smp) →
      SumTransformer.sumVolumes start finish data acc =
        .ok (acc + sumIntegrationSpec start finish data) := by
  intro data
  induction data with
  | nil => intro acc _; simp [SumTransformer.sumVolumes, sumIntegrationSpec]
  | cons smp rest ih =>
    intro acc h
    obtain ⟨t, hp, he⟩ :=
      parseTimestamp_embedded smp (h smp (List.mem_cons_self _ _))
    have ihr := ih (if start.toSec ≤ t.toSec ∧ t.toSec < finish.toSec then
        acc + smp.volume.getD 0 else acc)
      (fun x hx => h x (List.mem_cons_of_mem _ hx))
    simp only [SumTransformer.sumVolumes, hp, exceptOkBind]
    rw [ihr]
    by_cases hin : start.toSec ≤ t.toSec ∧ t.toSec < finish.toSec
    · have hw : embeddedInWindow smp start finish = true := by
        simp [embeddedInWindow, he, hin]
      simp only [sumIntegrationSpec, hw, if_pos hin, if_true]
      rw [add_assoc]
    · have hw : embeddedInWindow smp start finish = false := by
        simp only [embeddedInWindow, he]
        simpa using hin
      simp [sumIntegrationSpec, hw, if_neg hin]

/-- Sample data of the claim's concrete example: volumes 1 at 00:00,
00:10 and 01:00. -/
def c4Data : List Sample := [sampleAt "2014-01-01T00:00:00" (some 1),
  sampleAt "2014-01-01T00:10:00" (some 1),
  sampleAt "2014-01-01T01:00:00" (some 1)]

/-- C4: the sum-integration transformer sums the volumes (null as 0) of
exactly those samples whose embedded timestamp t satisfies
`start <= t < end`, accepting both timestamp formats; in particular the
claim's example sums to 2, the boundary sample at the window end being
excluded. -/
theorem c4_sum_integration :
    (∀ (name : String) (data : List Sample) (start finish : PyDateTime),
      (∀ smp ∈ data, parseable smp) →
      SumTransformer.transform_usage name data start finish =
        .ok (some [(name, sumIntegrationSpec start finish data)]))
    ∧ SumTransformer.transform_usage "fake_meter" c4Data w0 w1 =
      .ok (some [("fake_meter", 2)]) := by
  constructor
  · intro name data start finish h
    unfold SumTransformer.transform_usage
    rw [sumVolumes_spec start finish data 0 h]
    simp [Except.bind, zero_add]
  · with_unfolding_all rfl

/-- Witness for C4 at the claim's example data. -/
theorem c4_sum_integration_witness :
    (∀ smp ∈ c4Data, parseable smp)
    ∧ SumTransformer.transform_usage "fake_meter" c4Data w0 w1 =
      .ok (some [("fake_meter", sumIntegrationSpec w0 w1 c4Data)]) :=
  ⟨by decide, (c4_sum_integration).1 "fake_meter" c4Data w0 w1 (by decide)⟩

end Distil

namespace Distil

/-- Folding `max` from 0 over a list of zeros stays 0. -/
theorem foldl_max_zeros : ∀ xs : List ℚ, (∀ x ∈ xs, x = 0) →
    xs.foldl max 0 = 0 := by
  intro xs
  induction xs with
  | nil => intro _; rfl
  | cons x tl ih =>
    intro h
    have hx : x = 0 := h x (List.mem_cons_self _ _)
    simp only [List.foldl_cons, hx, max_self]
    exact ih (fun y hy => h y (List.mem_cons_of_mem _ hy))

/-- The max volume of an all-null sample list is 0. -/
theorem get_max_vol_all_null (data : List Sample)
    (h : ∀ smp ∈ data, smp.volume = none) :
    MaxTransformer.get_max_vol data = 0 := by
  unfold MaxTransformer.get_max_vol
  rcases data with _ | ⟨smp, rest⟩
  · rfl
  · simp only [List.map_cons]
    have hsmp : smp.volume.getD 0 = 0 := by
      rw [h smp (List.mem_cons_self _ _)]; rfl
    have hrest : (rest.map (fun v => v.volume.getD 0)).foldl max 0 = 0 := by
      refine foldl_max_zeros _ ?_
      intro x hx
      obtain ⟨v, hv, hvx⟩ := List.mem_map.1 hx
      rw [h v (List.mem_cons_of_mem _ hv)] at hvx
      exact hvx.symm
    rw [hsmp, hrest]
    simp

end Distil

namespace Distil

/-- The in-window sum of an all-null sample list is 0. -/
theorem sumIntegrationSpec_all_null (start finish : PyDateTime) :
    ∀ data : List Sample, (∀ smp ∈ data, smp.volume = none) →
      sumIntegrationSpec start finish data = 0 := by
  intro data
  induction data with
  | nil => intro _; rfl
  | cons smp rest ih =>
    intro h
    have hs : smp.volume = none := h smp (List.mem_cons_self _ _)
    simp only [sumIntegrationSpec, hs,
      ih (fun x hx => h x (List.mem_cons_of_mem _ hx))]
    simp

/-- The presence loop of the numbool transformer returns 0 on an all-null
sample list. -/
theorem numbool_go_all_null (name : String) :
    ∀ data : List Sample, (∀ smp ∈ data, smp.volume = none) →
      NumboolTransformer.transform_usage.go name data = [(name, 0)] := by
  intro data
  induction data with
  | nil => intro _; rfl
  | cons smp rest ih =>
    intro h
    have hs : smp.volume = none := h smp (List.mem_cons_self _ _)
    simp only [NumboolTransformer.transform_usage.go, hs]
    exact ih (fun x hx => h x (List.mem_cons_of_mem _ hx))

/-- C2 (corrected): for the presence-boolean, max-integration and
sum-integration transformers, a sample list in which every sample's
volume is null yields usage volume 0 and raises no exception (the
sum-integration case given its timestamps parse); the threshold-state-sum
(network service) transformer, however, is NOT null-safe: on any
non-empty all-null sample list it raises a `TypeError` (under Python 3 a
null volume cannot be compared with the ceiling 2). -/
theorem c2_volume_null_safety (name : String) (data : List Sample)
    (start finish : PyDateTime) (h : ∀ smp ∈ data, smp.volume = none) :
    NumboolTransformer.transform_usage name data start finish =
      .ok (some [(name, 0)])
    ∧ MaxTransformer.transform_usage name data start finish =
      .ok (some [(name, 0)])
    ∧ ((∀ smp ∈ data, parseable smp) →
      SumTransformer.transform_usage name data start finish =
        .ok (some [(name, 0)]))
    ∧ (data ≠ [] →
      NetworkServiceTransformer.transform_usage name data start finish =
        .error .typeError) := by
  refine ⟨?_, ?_, ?_, ?_⟩
  · unfold NumboolTransformer.transform_usage
    rw [numbool_go_all_null name data h]
  · unfold MaxTransformer.transform_usage
    rw [get_max_vol_all_null data h, zero_mul]
  · intro hp
    unfold SumTransformer.transform_usage
    rw [sumVolumes_spec start finish data 0 hp, exceptOkBind,
      sumIntegrationSpec_all_null start finish data h, add_zero]
    rfl
  · intro hne
    rcases data with _ | ⟨smp, rest⟩
    · exact absurd rfl hne
    · have hs : smp.volume = none := h smp (List.mem_cons_self _ _)
      unfold NetworkServiceTransformer.transform_usage
      have hf : NetworkServiceTransformer.filterVolumes (smp :: rest) =
          .error .typeError := by
        simp [NetworkServiceTransformer.filterVolumes, hs]
      rw [hf, exceptErrorBind]

/-- All-null sample list of the C2 counterexample and witness. -/
def c2Data : List Sample := [sampleAt "2014-01-01T00:00:00" none]

/-- Counterexample to C2 as stated: the threshold-state-sum (network
service) transformer — a member of the transformer catalog — raises a
`TypeError` on a non-empty sample list whose only volume is null, instead
of yielding 0 or null. -/
theorem c2_counterexample :
    NetworkServiceTransformer.transform_usage "m" c2Data w0 w1 =
      .error .typeError := by
  with_unfolding_all rfl

/-- Witness for the amended C2 at an all-null one-sample list. -/
theorem c2_volume_null_safety_witness :
    NumboolTransformer.transform_usage "m" c2Data w0 w1 =
      .ok (some [("m", 0)])
    ∧ MaxTransformer.transform_usage "m" c2Data w0 w1 =
      .ok (some [("m", 0)])
    ∧ SumTransformer.transform_usage "m" c2Data w0 w1 =
      .ok (some [("m", 0)])
    ∧ NetworkServiceTransformer.transform_usage "m" c2Data w0 w1 =
      .error .typeError :=
  ⟨(c2_volume_null_safety "m" c2Data w0 w1 (by decide)).1,
   (c2_volume_null_safety "m" c2Data w0 w1 (by decide)).2.1,
   (c2_volume_null_safety "m" c2Data w0 w1 (by decide)).2.2.1 (by decide),
   (c2_volume_null_safety "m" c2Data w0 w1 (by decide)).2.2.2 (by decide)⟩

end Distil

namespace Distil

/-! Trace structure of `collect_usage` (claims C1, C8, C9). -/

/-- The events of one resource group are a list of usage entries mapped
into usage notifications. -/
theorem process_resource_events_shape (env : Env) (project_id : String)
    (mapping : MeterMapping) (service : String) (transformer : TransformFn)
    (ws we : PyDateTime) (resources : Resources)
    (usage_entries : List UsageEntry) (res_id_raw : String)
    (entries : List Sample) :
    ∃ l : List UsageEntry,
      (BaseCollector.process_resource env project_id mapping service
        transformer ws we resources usage_entries res_id_raw entries).1 =
      l.map Event.usage := by
  unfold BaseCollector.process_resource
  cases h1 : applyTemplateStr (mapping.res_id_template.getD "%s") res_id_raw with
  | error e1 => exact ⟨[], rfl⟩
  | ok rid =>
    dsimp only
    cases h2 : BaseCollector.preprocess_entries env mapping entries with
    | error e2 => exact ⟨[], rfl⟩
    | ok entries2 =>
      dsimp only
      cases h3 : entries2.getLast? with
      | none => exact ⟨[], rfl⟩
      | some lastEntry =>
        dsimp only
        cases h4 : transformer service entries2 ws we with
        | error e4 => exact ⟨[], rfl⟩
        | ok transformed =>
          dsimp only
          by_cases h5 : truthyVolumes transformed = true
          · rw [if_pos h5]
            cases h6 : BaseCollector.get_resource_info env project_id
                (BaseCollector.hashed_res_id env mapping rid) mapping.type
                lastEntry mapping.metadata with
            | error e6 => exact ⟨[], rfl⟩
            | ok res_info => exact ⟨_, rfl⟩
          · rw [if_neg h5]; exact ⟨[], rfl⟩

/-- Events emitted while processing one resource group are all metrics
usage notifications — never commits. -/
theorem process_resource_events_usage (env : Env) (project_id : String)
    (mapping : MeterMapping) (service : String) (transformer : TransformFn)
    (ws we : PyDateTime) (resources : Resources)
    (usage_entries : List UsageEntry) (res_id_raw : String)
    (entries : List Sample) :
    ∀ e ∈ (BaseCollector.process_resource env project_id mapping service
      transformer ws we resources usage_entries res_id_raw entries).1,
      e.isUsage = true := by
  obtain ⟨l, hl⟩ := process_resource_events_shape env project_id mapping
    service transformer ws we resources usage_entries res_id_raw entries
  intro e he
  rw [hl] at he
  obtain ⟨ue, _, rfl⟩ := List.mem_map.1 he
  rfl

/-- Events emitted by the `_transform_usages` loop are all usage
notifications. -/
theorem transform_usages_go_events_usage (env : Env) (project_id : String)
    (mapping : MeterMapping) (service : String) (transformer : TransformFn)
    (ws we : PyDateTime) :
    ∀ (groups : List (String × List Sample)) (resources : Resources)
      (usage_entries : List UsageEntry),
      ∀ e ∈ (BaseCollector.transform_usages_go env project_id mapping service
        transformer ws we groups resources usage_entries).1,
        e.isUsage = true := by
  intro groups
  induction groups with
  | nil =>
    intro resources usage_entries e he
    exact absurd he (List.not_mem_nil _)
  | cons g rest ih =>
    intro resources usage_entries e he
    obtain ⟨rid, entries⟩ := g
    simp only [BaseCollector.transform_usages_go] at he
    rcases hpr : BaseCollector.process_resource env project_id mapping service
        transformer ws we resources usage_entries rid entries with ⟨evts, res⟩
    rw [hpr] at he
    have hevts : evts = (BaseCollector.process_resource env project_id mapping
        service transformer ws we resources usage_entries rid entries).1 := by
      rw [hpr]
    cases res with
    | error err =>
      dsimp only at he
      exact process_resource_events_usage env project_id mapping service
        transformer ws we resources usage_entries rid entries e (hevts ▸ he)
    | ok acc =>
      obtain ⟨rs', ues'⟩ := acc
      dsimp only at he
      rcases List.mem_append.1 he with h | h
      · exact process_resource_events_usage env project_id mapping service
          transformer ws we resources usage_entries rid entries e (hevts ▸ h)
      · exact ih rs' ues' e h

/-- Events emitted while processing the meter mappings of a window are all
usage notifications. -/
theorem process_mappings_events_usage (env : Env) (conf : CollectorConf)
    (project_id : String) (ws we : PyDateTime) :
    ∀ (mappings : List MeterMapping) (resources : Resources)
      (usage_entries : List UsageEntry),
      ∀ e ∈ (BaseCollector.process_mappings env conf project_id ws we
        mappings resources usage_entries).1, e.isUsage = true := by
  intro mappings
  induction mappings with
  | nil =>
    intro resources usage_entries e he
    exact absurd he (List.not_mem_nil _)
  | cons m rest ih =>
    intro resources usage_entries e he
    simp only [BaseCollector.process_mappings] at he
    cases hm : env.get_meter project_id m.meter ws we with
    | error err =>
      rw [hm] at he
      exact absurd he (List.not_mem_nil _)
    | ok usage =>
      rw [hm] at he
      dsimp only at he
      rcases htu : BaseCollector.transform_usages env project_id
          (BaseCollector.filter_and_group env conf.trust_sources usage) m
          ws we resources usage_entries with ⟨evts, res⟩
      rw [htu] at he
      have husage : ∀ e' ∈ evts, e'.isUsage = true := by
        intro e' he'
        have hevts : evts = (BaseCollector.transform_usages env project_id
            (BaseCollector.filter_and_group env conf.trust_sources usage) m
            ws we resources usage_entries).1 := by rw [htu]
        rw [hevts] at he'
        exact transform_usages_go_events_usage env project_id m
          (m.service.getD m.meter)
          (env.get_transformer m.transformer m.transformer_config) ws we
          (BaseCollector.filter_and_group env conf.trust_sources usage)
          resources usage_entries e' he'
      cases res with
      | error err =>
        dsimp only at he
        exact husage e he
      | ok acc =>
        obtain ⟨rs', ues'⟩ := acc
        dsimp only at he
        rcases List.mem_append.1 he with h | h
        · exact husage e h
        · exact ih rs' ues' e h

/-- A trace of usage notifications contains no commits. -/
theorem commitsOf_usage_only (tr : List Event)
    (h : ∀ e ∈ tr, e.isUsage = true) : commitsOf tr = [] := by
  unfold commitsOf
  rw [List.filter_eq_nil_iff]
  intro e he
  have hu := h e he
  cases e with
  | usage _ => simp [Event.isCommit]
  | usagesAdd _ _ _ _ => cases hu

/-- Window events contain no commits. -/
theorem window_events_no_commits (env : Env) (conf : CollectorConf)
    (project : Project) (w : PyDateTime × PyDateTime) :
    commitsOf (BaseCollector.window_events env conf project w) = [] := by
  apply commitsOf_usage_only
  intro e he
  exact process_mappings_events_usage env conf project.id w.1 w.2
    conf.meter_mappings [] [] e he

end Distil

namespace Distil

/-- Full trace characterization of `collect_usage`: it succeeds exactly
when every window is processed without error; the trace consists, for each
window of the longest successful prefix in order, of that window's metrics
notifications followed by its single commit, and — when a window fails —
of the notifications already emitted inside the failing window, with no
commit for it and nothing at all from the windows after it. -/
theorem collect_usage_trace (env : Env) (conf : CollectorConf)
    (project : Project) :
    ∀ windows : List (PyDateTime × PyDateTime),
      BaseCollector.collect_usage env conf project windows =
        (windows.all (BaseCollector.window_ok env conf project),
         (windows.takeWhile (BaseCollector.window_ok env conf project)).flatMap
             (fun w => BaseCollector.window_events env conf project w ++
               [BaseCollector.window_commit env conf project w])
           ++ (match windows.dropWhile
                  (BaseCollector.window_ok env conf project) with
               | [] => []
               | w :: _ => BaseCollector.window_events env conf project w)) := by
  intro windows
  induction windows with
  | nil => rfl
  | cons w rest ih =>
    obtain ⟨ws, we⟩ := w
    rcases hpw : BaseCollector.process_window env conf project ws we with
      ⟨evts, res⟩
    have hev : BaseCollector.window_events env conf project (ws, we) = evts := by
      unfold BaseCollector.window_events; rw [hpw]
    cases res with
    | ok acc =>
      obtain ⟨rs, ues⟩ := acc
      have hok : BaseCollector.window_ok env conf project (ws, we) = true := by
        unfold BaseCollector.window_ok; rw [hpw]
      have hres : BaseCollector.window_resources env conf project (ws, we)
          = rs := by
        unfold BaseCollector.window_resources; rw [hpw]
      have hent : BaseCollector.window_entries env conf project (ws, we)
          = ues := by
        unfold BaseCollector.window_entries; rw [hpw]
      have hcm : BaseCollector.window_commit env conf project (ws, we) =
          Event.usagesAdd project.id rs ues we := by
        unfold BaseCollector.window_commit
        rw [hres, hent]
      have key : BaseCollector.collect_usage env conf project
          ((ws, we) :: rest) =
          ((BaseCollector.collect_usage env conf project rest).1,
           evts ++ Event.usagesAdd project.id rs ues we ::
             (BaseCollector.collect_usage env conf project rest).2) := by
        simp only [BaseCollector.collect_usage, hpw]
      rw [key, ih]
      rw [List.takeWhile_cons_of_pos hok, List.dropWhile_cons_of_pos hok,
        List.all_cons, hok, List.flatMap_cons, hev, hcm]
      simp [List.append_assoc]
    | error err =>
      have hok : BaseCollector.window_ok env conf project (ws, we) = false := by
        unfold BaseCollector.window_ok; rw [hpw]
      have key : BaseCollector.collect_usage env conf project
          ((ws, we) :: rest) = (false, evts) := by
        simp only [BaseCollector.collect_usage, hpw]
      rw [key]
      rw [List.takeWhile_cons_of_neg (by simp [hok]),
        List.dropWhile_cons_of_neg (by simp [hok]), List.all_cons, hok]
      simp [hev]

end Distil

namespace Distil

/-- Filtering the per-window blocks of a successful prefix for commits
leaves exactly one commit per window, in order. -/
theorem commitsOf_window_flatMap (env : Env) (conf : CollectorConf)
    (project : Project) :
    ∀ l : List (PyDateTime × PyDateTime),
      commitsOf (l.flatMap (fun w =>
        BaseCollector.window_events env conf project w ++
          [BaseCollector.window_commit env conf project w])) =
      l.map (BaseCollector.window_commit env conf project) := by
  intro l
  induction l with
  | nil => rfl
  | cons w rest ih =>
    rw [List.flatMap_cons]
    unfold commitsOf at ih ⊢
    rw [List.filter_append, List.filter_append, ih]
    have h1 : (BaseCollector.window_events env conf project w).filter
        Event.isCommit = [] := window_events_no_commits env conf project w
    have h2 : [BaseCollector.window_commit env conf project w].filter
        Event.isCommit = [BaseCollector.window_commit env conf project w] := by
      unfold BaseCollector.window_commit
      rfl
    rw [h1, h2]
    simp

/-- C1: `collect_usage` processes the given windows in order and returns
True exactly when every window's meter mappings are all processed without
error; the commits it performs are exactly one `usages_add` per window of
the longest successful prefix, in window order, each carrying that
window's resources, usage entries, and the window end as the new
watermark — so on the first failing window it stops without committing
that window or touching later ones, and the watermark stays at the end of
the last committed window. -/
theorem c1_collect_usage_commit_prefix (env : Env) (conf : CollectorConf)
    (project : Project) (windows : List (PyDateTime × PyDateTime)) :
    (BaseCollector.collect_usage env conf project windows).1 =
      windows.all (BaseCollector.window_ok env conf project)
    ∧ commitsOf (BaseCollector.collect_usage env conf project windows).2 =
      (windows.takeWhile (BaseCollector.window_ok env conf project)).map
        (BaseCollector.window_commit env conf project) := by
  rw [collect_usage_trace env conf project windows]
  refine ⟨rfl, ?_⟩
  show commitsOf _ = _
  unfold commitsOf
  rw [List.filter_append]
  have h2 : (match windows.dropWhile
      (BaseCollector.window_ok env conf project) with
    | [] => ([] : List Event)
    | w :: _ => BaseCollector.window_events env conf project w).filter
      Event.isCommit = [] := by
    cases windows.dropWhile (BaseCollector.window_ok env conf project) with
    | nil => rfl
    | cons w t => exact window_events_no_commits env conf project w
  rw [h2, List.append_nil]
  exact commitsOf_window_flatMap env conf project _

/-- C9: metrics notifications happen at usage-entry creation inside
`_transform_usages`, before the window's atomic `usages_add` commit — for
a successful window the trace is the notifications followed by the commit;
for a failing window the notifications already emitted stand in the trace
although no commit for that window is ever recorded, so metrics emission
is not atomic with persistence. -/
theorem c9_metrics_not_atomic (env : Env) (conf : CollectorConf)
    (project : Project) (ws we : PyDateTime) :
    (BaseCollector.window_ok env conf project (ws, we) = true →
      BaseCollector.collect_usage env conf project [(ws, we)] =
        (true, BaseCollector.window_events env conf project (ws, we) ++
          [BaseCollector.window_commit env conf project (ws, we)]))
    ∧ (BaseCollector.window_ok env conf project (ws, we) = false →
      BaseCollector.collect_usage env conf project [(ws, we)] =
        (false, BaseCollector.window_events env conf project (ws, we))
      ∧ commitsOf (BaseCollector.window_events env conf project (ws, we))
        = []) := by
  have ht := collect_usage_trace env conf project [(ws, we)]
  constructor
  · intro hok
    rw [ht]
    rw [List.takeWhile_cons_of_pos hok, List.dropWhile_cons_of_pos hok]
    simp [hok]
  · intro hok
    refine ⟨?_, window_events_no_commits env conf project (ws, we)⟩
    rw [ht]
    rw [List.takeWhile_cons_of_neg (by simp [hok]),
      List.dropWhile_cons_of_neg (by simp [hok])]
    simp [hok]

/-- Meter mapping used by the C9 witness (no filters, no overrides). -/
def c9Mapping (meterName : String) : MeterMapping :=
  ⟨meterName, some "svc", "Fake", "t", [], "u", [], [], none, none⟩

/-- Environment of the C9 witness: meter "m1" yields one sample and a
constant transformer volume, meter "m2" fails with a collection error. -/
def c9Env : Env :=
  { c5Env with
    get_meter := fun _ meter _ _ =>
      if meter = "m1" then .ok [⟨"rid", "src", "ts", some 5, [], "p"⟩]
      else .error .collectionError,
    get_transformer := fun _ _ => fun svc _ _ _ => .ok (some [(svc, 37)]) }

/-- Collector configuration of the C9 witness: the failing meter comes
after the succeeding one. -/
def c9Conf : CollectorConf := ⟨[c9Mapping "m1", c9Mapping "m2"], []⟩

/-- Project of the C9 witness. -/
def c9Project : Project := ⟨"p", "n"⟩

/-- Usage entry the C9 witness sees notified but never persisted. -/
def c9Entry : UsageEntry := ⟨"svc", 37, "u", "rid", w0, w1, "p"⟩

/-- Witness for C9 at a concrete run: the second meter mapping fails, the
window is never committed, yet the metrics notification for the first
mapping's usage entry has already been emitted. -/
theorem c9_metrics_not_atomic_witness :
    BaseCollector.window_ok c9Env c9Conf c9Project (w0, w1) = false
    ∧ BaseCollector.collect_usage c9Env c9Conf c9Project [(w0, w1)] =
        (false, [Event.usage c9Entry])
    ∧ commitsOf (BaseCollector.collect_usage c9Env c9Conf c9Project
        [(w0, w1)]).2 = [] := by
  have h := (c9_metrics_not_atomic c9Env c9Conf c9Project w0 w1).2 (by decide)
  refine ⟨by decide, ?_, ?_⟩
  · rw [h.1]
    with_unfolding_all rfl
  · rw [h.1]
    exact h.2

end Distil

namespace Distil

/-! Claim C8 — empty windows still advance the watermark. -/

/-- Well-formedness of a resource-id template: exactly one `%s` directive
(the default template `%s` qualifies), so that `template % res_id` cannot
raise. -/
def templateWellFormed (t : Option String) : Bool :=
  match findPercentS (t.getD "%s").data with
  | some (_, after) => (findPercentS after).isNone
  | none => false

/-- A well-formed template always applies successfully. -/
theorem applyTemplateStr_wf (t : Option String)
    (h : templateWellFormed t = true) (res_id : String) :
    ∃ r, applyTemplateStr (t.getD "%s") res_id = .ok r := by
  unfold templateWellFormed at h
  unfold applyTemplateStr
  cases h1 : findPercentS (t.getD "%s").data with
  | none => rw [h1] at h; cases h
  | some pr =>
    obtain ⟨before, after⟩ := pr
    rw [h1] at h
    dsimp only at h ⊢
    cases h2 : findPercentS after with
    | some pr2 => rw [h2] at h; cases h
    | none => exact ⟨_, rfl⟩

/-- Volume overrides leave an empty sample list empty and never fail on
it. -/
theorem applyVolumeKey_nil (env : Env) (slot : Option SearchExpr) :
    applyVolumeKey env slot [] = .ok [] := by
  cases slot with
  | none => rfl
  | some expr =>
    unfold applyVolumeKey
    dsimp only
    by_cases h : expr.pyTruthy = true
    · rw [if_pos h]; rfl
    · rw [if_neg h]

/-- The volume-override stage on an empty sample list is a no-op. -/
theorem applyVolumeOverride_nil (env : Env) (volume_config : VolumeCfg) :
    applyVolumeOverride env volume_config [] = .ok [] := by
  cases volume_config with
  | lit v => rfl
  | cfgDict sources source =>
    unfold applyVolumeOverride
    dsimp only
    rw [applyVolumeKey_nil, exceptOkBind, applyVolumeKey_nil]

/-- When the mapping has filters and every sample of the group fails them,
the whole pre-transformation stage yields the empty list. -/
theorem preprocess_all_filtered (env : Env) (mapping : MeterMapping)
    (entries : List Sample) (hf : mapping.filters ≠ [])
    (hall : ∀ u ∈ entries,
      BaseCollector.sample_filter env mapping.filters u = false) :
    BaseCollector.preprocess_entries env mapping entries = .ok [] := by
  have hfil : (if mapping.filters ≠ [] then
      entries.filter (BaseCollector.sample_filter env mapping.filters)
    else entries) = [] := by
    rw [if_pos hf]
    exact List.filter_eq_nil_iff.2 (fun a ha => by simp [hall a ha])
  unfold BaseCollector.preprocess_entries
  cases mapping.volume with
  | none => rw [hfil]
  | some volume_config =>
    dsimp only
    by_cases ht : volume_config.pyTruthy = true
    · rw [if_pos ht, hfil, applyVolumeOverride_nil]
    · rw [if_neg ht, hfil]

/-- A resource group whose samples all fail the mapping filters is skipped
entirely: no events, no error, accumulators unchanged. -/
theorem process_resource_skip (env : Env) (project_id : String)
    (mapping : MeterMapping) (service : String) (transformer : TransformFn)
    (ws we : PyDateTime) (resources : Resources)
    (usage_entries : List UsageEntry) (res_id_raw : String)
    (entries : List Sample)
    (hwf : templateWellFormed mapping.res_id_template = true)
    (hf : mapping.filters ≠ [])
    (hall : ∀ u ∈ entries,
      BaseCollector.sample_filter env mapping.filters u = false) :
    BaseCollector.process_resource env project_id mapping service transformer
      ws we resources usage_entries res_id_raw entries =
      ([], .ok (resources, usage_entries)) := by
  obtain ⟨rid, hrid⟩ := applyTemplateStr_wf mapping.res_id_template hwf
    res_id_raw
  unfold BaseCollector.process_resource
  rw [hrid]
  dsimp only
  rw [preprocess_all_filtered env mapping entries hf hall]
  rfl

/-- Nonemptiness of the groups produced by `setdefaultAppend`. -/
theorem setdefaultAppend_nonempty (k : String) (u : Sample) :
    ∀ gs : List (String × List Sample), (∀ g ∈ gs, g.2 ≠ []) →
      ∀ g ∈ setdefaultAppend gs k u, g.2 ≠ [] := by
  intro gs
  induction gs with
  | nil =>
    intro _ g hg
    simp only [setdefaultAppend, List.mem_singleton] at hg
    subst hg
    simp
  | cons hd tl ih =>
    obtain ⟨k', l⟩ := hd
    intro h g hg
    simp only [setdefaultAppend] at hg
    by_cases hk : k' = k
    · rw [if_pos hk] at hg
      rcases List.mem_cons.1 hg with rfl | hg
      · simp
      · exact h g (List.mem_cons_of_mem _ hg)
    · rw [if_neg hk] at hg
      rcases List.mem_cons.1 hg with rfl | hg
      · exact h (k', l) (List.mem_cons_self _ _)
      · exact ih (fun g' hg' => h g' (List.mem_cons_of_mem _ hg')) g hg

/-- Every group built by `_filter_and_group` is non-empty. -/
theorem filter_and_group_groups_nonempty (env : Env) (ts : List String) :
    ∀ (usage : List Sample) (acc : List (String × List Sample)),
      (∀ g ∈ acc, g.2 ≠ []) →
      ∀ g ∈ BaseCollector.filter_and_group.go env ts usage acc, g.2 ≠ [] := by
  intro usage
  induction usage with
  | nil =>
    intro acc hacc g hg
    exact hacc g (by simpa [BaseCollector.filter_and_group.go] using hg)
  | cons u rest ih =>
    intro acc hacc g hg
    simp only [BaseCollector.filter_and_group.go] at hg
    by_cases hu : BaseCollector.untrusted env ts u
    · rw [if_pos hu] at hg
      exact ih acc hacc g hg
    · rw [if_neg hu] at hg
      exact ih _ (setdefaultAppend_nonempty u.resource_id u acc hacc) g hg

/-- The `_transform_usages` loop is a no-op on groups whose samples all
fail the mapping filters. -/
theorem transform_usages_go_skip (env : Env) (project_id : String)
    (mapping : MeterMapping) (service : String) (transformer : TransformFn)
    (ws we : PyDateTime) :
    ∀ (groups : List (String × List Sample)) (resources : Resources)
      (usage_entries : List UsageEntry),
      (∀ g ∈ groups, g.2 ≠ []) →
      (∀ g ∈ groups, ∀ u ∈ g.2,
        templateWellFormed mapping.res_id_template = true ∧
        mapping.filters ≠ [] ∧
        BaseCollector.sample_filter env mapping.filters u = false) →
      BaseCollector.transform_usages_go env project_id mapping service
        transformer ws we groups resources usage_entries =
        ([], .ok (resources, usage_entries)) := by
  intro groups
  induction groups with
  | nil => intro resources usage_entries _ _; rfl
  | cons g rest ih =>
    intro resources usage_entries hne hprop
    obtain ⟨rid, entries⟩ := g
    have hne0 : entries ≠ [] := hne (rid, entries) (List.mem_cons_self _ _)
    obtain ⟨u0, hu0⟩ := List.exists_mem_of_ne_nil entries hne0
    obtain ⟨hwf, hf, _⟩ :=
      hprop (rid, entries) (List.mem_cons_self _ _) u0 hu0
    have hall : ∀ u ∈ entries,
        BaseCollector.sample_filter env mapping.filters u = false :=
      fun u hu => (hprop (rid, entries) (List.mem_cons_self _ _) u hu).2.2
    simp only [BaseCollector.transform_usages_go]
    rw [process_resource_skip env project_id mapping service transformer ws
      we resources usage_entries rid entries hwf hf hall]
    dsimp only
    rw [ih resources usage_entries
      (fun g' hg' => hne g' (List.mem_cons_of_mem _ hg'))
      (fun g' hg' => hprop g' (List.mem_cons_of_mem _ hg'))]
    rfl

/-- Mapping processing is a no-op on a window whose meters return no
samples, or only samples that are untrusted or fail the mapping filters. -/
theorem process_mappings_skip (env : Env) (conf : CollectorConf)
    (project_id : String) (ws we : PyDateTime) :
    ∀ (mappings : List MeterMapping) (resources : Resources)
      (usage_entries : List UsageEntry),
      (∀ m ∈ mappings, ∃ us,
        env.get_meter project_id m.meter ws we = .ok us ∧
        ∀ u ∈ us, BaseCollector.untrusted env conf.trust_sources u = true ∨
          (templateWellFormed m.res_id_template = true ∧ m.filters ≠ [] ∧
            BaseCollector.sample_filter env m.filters u = false)) →
      BaseCollector.process_mappings env conf project_id ws we mappings
        resources usage_entries = ([], .ok (resources, usage_entries)) := by
  intro mappings
  induction mappings with
  | nil => intro resources usage_entries _; rfl
  | cons m rest ih =>
    intro resources usage_entries h
    obtain ⟨us, hget, hsamp⟩ := h m (List.mem_cons_self _ _)
    simp only [BaseCollector.process_mappings]
    rw [hget]
    dsimp only
    have hskip : BaseCollector.transform_usages env project_id
        (BaseCollector.filter_and_group env conf.trust_sources us) m ws we
        resources usage_entries = ([], .ok (resources, usage_entries)) := by
      unfold BaseCollector.transform_usages
      apply transform_usages_go_skip
      · intro g hg
        exact filter_and_group_groups_nonempty env conf.trust_sources us []
          (fun g' hg' => absurd hg' (List.not_mem_nil _)) g hg
      · intro g hg u hu
        rcases filter_and_group_go_inv env conf.trust_sources us [] g hg u hu
          with ⟨g₀, hg₀, _, _⟩ | ⟨hin, hkept⟩
        · exact absurd hg₀ (List.not_mem_nil _)
        · rcases hsamp u hin with hun | hok
          · rw [hun] at hkept; cases hkept
          · exact hok
    rw [hskip]
    dsimp only
    rw [ih resources usage_entries
      (fun m' hm' => h m' (List.mem_cons_of_mem _ hm'))]
    rfl

/-- C8: a window in which every configured meter returns no samples, or
only samples dropped by trust filtering or the mapping filters, is still
committed: `usages_add` is called with empty resources, an empty
usage-entry list, and the window end as the new watermark, so the
project's watermark advances past windows with no billable usage. -/
theorem c8_empty_window_still_commits (env : Env) (conf : CollectorConf)
    (project : Project) (ws we : PyDateTime)
    (h : ∀ m ∈ conf.meter_mappings, ∃ us,
      env.get_meter project.id m.meter ws we = .ok us ∧
      ∀ u ∈ us, BaseCollector.untrusted env conf.trust_sources u = true ∨
        (templateWellFormed m.res_id_template = true ∧ m.filters ≠ [] ∧
          BaseCollector.sample_filter env m.filters u = false)) :
    BaseCollector.collect_usage env conf project [(ws, we)] =
      (true, [Event.usagesAdd project.id [] [] we]) := by
  have hw : BaseCollector.process_window env conf project ws we =
      ([], .ok ([], [])) := by
    unfold BaseCollector.process_window
    exact process_mappings_skip env conf project.id ws we
      conf.meter_mappings [] [] h
  simp only [BaseCollector.collect_usage, hw]
  rfl

end Distil

namespace Distil

/-- Sample of the C8 witness, dropped by the mapping filters. -/
def c8Sample : Sample := ⟨"rid", "src", "ts", some 1, [("status", "BAD")], "p"⟩

/-- C8 witness mapping whose meter has no samples. -/
def c8MappingEmpty : MeterMapping :=
  ⟨"m1", none, "Fake", "t", [], "u", [], [], none, none⟩

/-- C8 witness mapping whose only sample fails its filter. -/
def c8MappingFiltered : MeterMapping :=
  ⟨"m2", none, "Fake", "t", [], "u", [], ["f"], none, none⟩

/-- Environment of the C8 witness: meter "m1" returns nothing, every other
meter returns the to-be-filtered sample; every filter expression resolves
to null, so the sample fails it. -/
def c8Env : Env :=
  { c5Env with get_meter := fun _ meter _ _ =>
      if meter = "m1" then .ok [] else .ok [c8Sample] }

/-- Collector configuration of the C8 witness. -/
def c8Conf : CollectorConf := ⟨[c8MappingEmpty, c8MappingFiltered], []⟩

/-- Project of the C8 witness. -/
def c8Project : Project := ⟨"p", "n"⟩

/-- Witness for C8 at a concrete run: one meter empty, the other's only
sample filtered out — the window commits with empty resources and entries
and the watermark set to the window end. -/
theorem c8_empty_window_still_commits_witness :
    BaseCollector.collect_usage c8Env c8Conf c8Project [(w0, w1)] =
      (true, [Event.usagesAdd c8Project.id [] [] w1]) :=
  c8_empty_window_still_commits c8Env c8Conf c8Project w0 w1 (by
    intro m hm
    rcases List.mem_cons.1 hm with rfl | hm
    · exact ⟨[], by decide, fun u hu => absurd hu (List.not_mem_nil _)⟩
    · rcases List.mem_cons.1 hm with rfl | hm
      · refine ⟨[c8Sample], by decide, ?_⟩
        intro u hu
        have hu' := List.mem_singleton.1 hu
        subst hu'
        exact Or.inr ⟨by decide, by decide, by decide⟩
      · exact absurd hm (List.not_mem_nil _))

end Distil

namespace Distil

/-! Claim C6 — object storage container resource ids are content hashes. -/

/-- A resource id that is the md5 hex digest of the post-template id of
one of the grouped raw resource ids — i.e. a deterministic function of
that raw id string. -/
def oscHashed (env : Env) (mapping : MeterMapping) (keys : List String)
    (rid : String) : Prop :=
  ∃ raw ∈ keys, ∃ post,
    applyTemplateStr (mapping.res_id_template.getD "%s") raw = .ok post ∧
    rid = env.md5_hex post

/-- Widening the candidate raw ids preserves `oscHashed`. -/
theorem oscHashed_mono (env : Env) (mapping : MeterMapping)
    {keys keys' : List String} (hsub : ∀ k ∈ keys, k ∈ keys')
    {rid : String} (h : oscHashed env mapping keys rid) :
    oscHashed env mapping keys' rid := by
  obtain ⟨raw, hraw, post, h1, h2⟩ := h
  exact ⟨raw, hsub raw hraw, post, h1, h2⟩

/-- Entries of an association list after `aset` are old entries or carry
the assigned key. -/
theorem mem_aset_inv {α : Type} (k : String) (v : α) :
    ∀ (l : List (String × α)) (kv : String × α),
      kv ∈ aset l k v → kv ∈ l ∨ kv.1 = k := by
  intro l
  induction l with
  | nil =>
    intro kv hkv
    simp only [aset, List.mem_singleton] at hkv
    subst hkv
    exact Or.inr rfl
  | cons hd tl ih =>
    obtain ⟨k', v'⟩ := hd
    intro kv hkv
    simp only [aset] at hkv
    by_cases hk : k' = k
    · rw [if_pos hk] at hkv
      rcases List.mem_cons.1 hkv with rfl | hkv
      · exact Or.inr hk
      · exact Or.inl (List.mem_cons_of_mem _ hkv)
    · rw [if_neg hk] at hkv
      rcases List.mem_cons.1 hkv with rfl | hkv
      · exact Or.inl (List.mem_cons_self _ _)
      · rcases ih kv hkv with h | h
        · exact Or.inl (List.mem_cons_of_mem _ h)
        · exact Or.inr h

/-- Entries of the resources dict after the setdefault-update are old
entries or carry the upserted resource id as key. -/
theorem resSetdefaultUpdate_mem (resources : Resources) (k : String)
    (info : ResInfo) (kv : String × ResInfo)
    (hkv : kv ∈ resSetdefaultUpdate resources k info) :
    kv ∈ resources ∨ kv.1 = k := by
  unfold resSetdefaultUpdate at hkv
  cases halk : alookup resources k with
  | some old =>
    rw [halk] at hkv
    exact mem_aset_inv k _ resources kv hkv
  | none =>
    rw [halk] at hkv
    rcases List.mem_append.1 hkv with h | h
    · exact Or.inl h
    · have := List.mem_singleton.1 h
      subst this
      exact Or.inr rfl

/-- Per-group part of C6: under an object-storage mapping, every emitted
event and every new usage entry or resource record of the group carries
the md5 digest of the group's post-template resource id. -/
theorem process_resource_osc (env : Env) (project_id : String)
    (mapping : MeterMapping) (service : String) (transformer : TransformFn)
    (ws we : PyDateTime) (resources : Resources)
    (usage_entries : List UsageEntry) (rid : String) (entries : List Sample)
    (htype : mapping.type = "Object Storage Container") :
    (∀ e ∈ (BaseCollector.process_resource env project_id mapping service
        transformer ws we resources usage_entries rid entries).1,
      ∃ ue, e = Event.usage ue ∧ ∃ post,
        applyTemplateStr (mapping.res_id_template.getD "%s") rid = .ok post ∧
        ue.resource_id = env.md5_hex post)
    ∧ (∀ rs' ues', (BaseCollector.process_resource env project_id mapping
        service transformer ws we resources usage_entries rid entries).2 =
          .ok (rs', ues') →
        (∀ entry ∈ ues', entry ∈ usage_entries ∨ ∃ post,
          applyTemplateStr (mapping.res_id_template.getD "%s") rid =
            .ok post ∧ entry.resource_id = env.md5_hex post)
        ∧ (∀ kv ∈ rs', kv ∈ resources ∨ ∃ post,
          applyTemplateStr (mapping.res_id_template.getD "%s") rid =
            .ok post ∧ kv.1 = env.md5_hex post)) := by
  have hhash : ∀ post, BaseCollector.hashed_res_id env mapping post =
      env.md5_hex post := by
    intro post
    unfold BaseCollector.hashed_res_id
    rw [if_pos htype]
  unfold BaseCollector.process_resource
  cases h1 : applyTemplateStr (mapping.res_id_template.getD "%s") rid with
  | error e1 =>
    refine ⟨fun e he => absurd he (List.not_mem_nil _), ?_⟩
    intro rs' ues' h
    exact Except.noConfusion h
  | ok post =>
    dsimp only
    cases h2 : BaseCollector.preprocess_entries env mapping entries with
    | error e2 =>
      refine ⟨fun e he => absurd he (List.not_mem_nil _), ?_⟩
      intro rs' ues' h
      exact Except.noConfusion h
    | ok entries2 =>
      dsimp only
      cases h3 : entries2.getLast? with
      | none =>
        refine ⟨fun e he => absurd he (List.not_mem_nil _), ?_⟩
        intro rs' ues' h
        obtain ⟨hrs, hues⟩ := Prod.mk.injEq .. ▸ (Except.ok.injEq _ _ ▸ h)
        constructor
        · intro entry hentry
          rw [← hues] at hentry
          exact Or.inl hentry
        · intro kv hkv
          rw [← hrs] at hkv
          exact Or.inl hkv
      | some lastEntry =>
        dsimp only
        cases h4 : transformer service entries2 ws we with
        | error e4 =>
          refine ⟨fun e he => absurd he (List.not_mem_nil _), ?_⟩
          intro rs' ues' h
          exact Except.noConfusion h
        | ok transformed =>
          dsimp only
          by_cases h5 : truthyVolumes transformed = true
          · rw [if_pos h5]
            cases h6 : BaseCollector.get_resource_info env project_id
                (BaseCollector.hashed_res_id env mapping post) mapping.type
                lastEntry mapping.metadata with
            | error e6 =>
              refine ⟨fun e he => absurd he (List.not_mem_nil _), ?_⟩
              intro rs' ues' h
              exact Except.noConfusion h
            | ok res_info =>
              constructor
              · intro e he
                obtain ⟨ue, hue, rfl⟩ := List.mem_map.1 he
                obtain ⟨sv, _, rfl⟩ := List.mem_map.1 hue
                exact ⟨_, rfl, post, rfl, hhash post⟩
              · intro rs' ues' h
                injection h with h
                injection h with hrs hues
                subst hrs
                subst hues
                constructor
                · intro entry hentry
                  rcases List.mem_append.1 hentry with h | h
                  · exact Or.inl h
                  · obtain ⟨sv, _, rfl⟩ := List.mem_map.1 h
                    exact Or.inr ⟨post, rfl, hhash post⟩
                · intro kv hkv
                  rcases resSetdefaultUpdate_mem resources
                      (BaseCollector.hashed_res_id env mapping post) res_info
                      kv hkv with h | h
                  · exact Or.inl h
                  · exact Or.inr ⟨post, rfl, by rw [h, hhash post]⟩
          · rw [if_neg h5]
            refine ⟨fun e he => absurd he (List.not_mem_nil _), ?_⟩
            intro rs' ues' h
            injection h with h
            injection h with hrs hues
            subst hrs
            subst hues
            exact ⟨fun entry hentry => Or.inl hentry, fun kv hkv => Or.inl hkv⟩

end Distil

namespace Distil

/-- Loop-level part of C6, by induction over the resource groups. -/
theorem transform_usages_go_osc (env : Env) (project_id : String)
    (mapping : MeterMapping) (service : String) (transformer : TransformFn)
    (ws we : PyDateTime)
    (htype : mapping.type = "Object Storage Container") :
    ∀ (groups : List (String × List Sample)) (resources : Resources)
      (usage_entries : List UsageEntry),
      (∀ e ∈ (BaseCollector.transform_usages_go env project_id mapping
          service transformer ws we groups resources usage_entries).1,
        ∃ ue, e = Event.usage ue ∧
          oscHashed env mapping (groups.map Prod.fst) ue.resource_id)
      ∧ (∀ rs' ues', (BaseCollector.transform_usages_go env project_id
          mapping service transformer ws we groups resources
          usage_entries).2 = .ok (rs', ues') →
          (∀ entry ∈ ues', entry ∈ usage_entries ∨
            oscHashed env mapping (groups.map Prod.fst) entry.resource_id)
          ∧ (∀ kv ∈ rs', kv ∈ resources ∨
            oscHashed env mapping (groups.map Prod.fst) kv.1)) := by
  intro groups
  induction groups with
  | nil =>
    intro resources usage_entries
    refine ⟨fun e he => absurd he (List.not_mem_nil _), ?_⟩
    intro rs' ues' h
    injection h with h
    injection h with hrs hues
    subst hrs
    subst hues
    exact ⟨fun entry hentry => Or.inl hentry, fun kv hkv => Or.inl hkv⟩
  | cons g rest ih =>
    intro resources usage_entries
    obtain ⟨rid, entries⟩ := g
    have hsub : ∀ k ∈ rest.map Prod.fst,
        k ∈ ((rid, entries) :: rest).map Prod.fst := by
      intro k hk
      simp only [List.map_cons]
      exact List.mem_cons_of_mem _ hk
    have hPR := process_resource_osc env project_id mapping service
      transformer ws we resources usage_entries rid entries htype
    have hheadHash : ∀ r, (∃ post,
        applyTemplateStr (mapping.res_id_template.getD "%s") rid =
          .ok post ∧ r = env.md5_hex post) →
        oscHashed env mapping (((rid, entries) :: rest).map Prod.fst) r := by
      intro r ⟨post, hp, hr⟩
      exact ⟨rid, by simp [List.map_cons], post, hp, hr⟩
    simp only [BaseCollector.transform_usages_go]
    rcases hpr : BaseCollector.process_resource env project_id mapping
        service transformer ws we resources usage_entries rid entries with
      ⟨evts, res⟩
    rw [hpr] at hPR
    cases res with
    | error err =>
      dsimp only
      refine ⟨?_, ?_⟩
      · intro e he
        obtain ⟨ue, rfl, hpost⟩ := hPR.1 e he
        exact ⟨ue, rfl, hheadHash _ hpost⟩
      · intro rs' ues' h
        exact Except.noConfusion h
    | ok acc =>
      obtain ⟨rs1, ues1⟩ := acc
      dsimp only
      have hrec := ih rs1 ues1
      refine ⟨?_, ?_⟩
      · intro e he
        rcases List.mem_append.1 he with h | h
        · obtain ⟨ue, rfl, hpost⟩ := hPR.1 e h
          exact ⟨ue, rfl, hheadHash _ hpost⟩
        · obtain ⟨ue, rfl, hpost⟩ := hrec.1 e h
          exact ⟨ue, rfl, oscHashed_mono env mapping hsub hpost⟩
      · intro rs' ues' h
        obtain ⟨hue1, hrs1⟩ := hrec.2 rs' ues' h
        have hPR2 := hPR.2 rs1 ues1 rfl
        constructor
        · intro entry hentry
          rcases hue1 entry hentry with h1 | h1
          · rcases hPR2.1 entry h1 with h2 | h2
            · exact Or.inl h2
            · exact Or.inr (hheadHash _ h2)
          · exact Or.inr (oscHashed_mono env mapping hsub h1)
        · intro kv hkv
          rcases hrs1 kv hkv with h1 | h1
          · rcases hPR2.2 kv h1 with h2 | h2
            · exact Or.inl h2
            · exact Or.inr (hheadHash _ h2)
          · exact Or.inr (oscHashed_mono env mapping hsub h1)

/-- C6: for an "Object Storage Container" mapping, every usage entry it
emits, every entry it appends, and every resource record it upserts
carries as resource id the content hash (md5 hex digest) of the
post-template resource id of one of the grouped raw resource ids — a
deterministic function of that string, identical across repeated runs on
the same raw id. -/
theorem c6_object_storage_id_hash (env : Env) (project_id : String)
    (groups : List (String × List Sample)) (mapping : MeterMapping)
    (ws we : PyDateTime) (resources : Resources)
    (usage_entries : List UsageEntry)
    (htype : mapping.type = "Object Storage Container") :
    (∀ e ∈ (BaseCollector.transform_usages env project_id groups mapping
        ws we resources usage_entries).1,
      ∃ ue, e = Event.usage ue ∧
        oscHashed env mapping (groups.map Prod.fst) ue.resource_id)
    ∧ (∀ rs' ues', (BaseCollector.transform_usages env project_id groups
        mapping ws we resources usage_entries).2 = .ok (rs', ues') →
        (∀ entry ∈ ues', entry ∈ usage_entries ∨
          oscHashed env mapping (groups.map Prod.fst) entry.resource_id)
        ∧ (∀ kv ∈ rs', kv ∈ resources ∨
          oscHashed env mapping (groups.map Prod.fst) kv.1)) :=
  transform_usages_go_osc env project_id mapping
    (mapping.service.getD mapping.meter)
    (env.get_transformer mapping.transformer mapping.transformer_config)
    ws we htype groups resources usage_entries

/-- Object-storage mapping of the C6 witness. -/
def c6Mapping : MeterMapping :=
  ⟨"meter", some "svc", "Object Storage Container", "t", [], "u", [], [],
    none, none⟩

/-- Environment of the C6 witness: the content hash is modelled as a
distinct tagging function, and the transformer returns one constant
volume. -/
def c6Env : Env :=
  { c5Env with
    md5_hex := fun s => "H:" ++ s,
    get_transformer := fun _ _ => fun svc _ _ _ => .ok (some [(svc, 37)]) }

/-- Swift-style sample of the C6 witness. -/
def c6Sample : Sample := ⟨"proj/container", "src", "ts", some 1, [], "p"⟩

/-- Grouped usage of the C6 witness. -/
def c6Groups : List (String × List Sample) := [("proj/container", [c6Sample])]

/-- Usage entry of the C6 witness: the resource id is the digest of the
post-template raw id. -/
def c6Entry : UsageEntry :=
  ⟨"svc", 37, "u", "H:proj/container", w0, w1, "p"⟩

/-- Witness for C6 at a concrete run: the emitted entry's resource id is
the digest of the raw id, and the theorem applies to it. -/
theorem c6_object_storage_id_hash_witness :
    (BaseCollector.transform_usages c6Env "p" c6Groups c6Mapping w0 w1
      [] []).1 = [Event.usage c6Entry]
    ∧ c6Entry.resource_id = c6Env.md5_hex "proj/container"
    ∧ (∃ ue, Event.usage c6Entry = Event.usage ue ∧
        oscHashed c6Env c6Mapping (c6Groups.map Prod.fst) ue.resource_id) := by
  have h1 : (BaseCollector.transform_usages c6Env "p" c6Groups c6Mapping
      w0 w1 [] []).1 = [Event.usage c6Entry] := by with_unfolding_all rfl
  refine ⟨h1, by with_unfolding_all rfl, ?_⟩
  exact (c6_object_storage_id_hash c6Env "p" c6Groups c6Mapping w0 w1 [] []
    rfl).1 (Event.usage c6Entry)
    (by rw [h1]; exact List.mem_singleton.2 rfl)

end Distil
